import Mathlib

/-
Verification development for the heap-file layer (src/heapFiles/heapfile.cpp).

The heap-file layer is embedded shallowly: each C++ member function becomes a
Lean function on an explicit state record.  The collaborators that the heap
layer calls but that are not part of this repository - the page layer
(firstRecord, nextRecord, insertRecord, deleteRecord, getRecord, getNextPage,
init) and the buffer manager (readPage, allocPage, unPinPage) - are modelled
from the specification, section 6, as operations on an explicit disk of data
pages.  The buffer manager is modelled write-through: a write through a
pinned frame is immediately visible on the disk.  This is faithful for a
single handle because every mutating path in the source marks the frame dirty
before it can be unpinned.  Buffer-manager failures are injected through a
schedule parameter: call number n fails with status e when the schedule maps
n to (some e).
-/

/-- Status codes of error.h that the heap-file layer surfaces, plus the
page-layer and buffer-layer statuses it consumes.  NULLCURPAGE models the
crash that dereferencing a null curPage pointer would provoke in C++. -/
inductive Status where
  | OK
  | FILEEOF
  | ENDOFPAGE
  | NORECORDS
  | NOSPACE
  | INVALIDRECLEN
  | BADSCANPARM
  | INVALIDSLOTNO
  | BADPAGENO
  | BUFFEREXCEEDED
  | NULLCURPAGE
  deriving DecidableEq, Repr

/-- Datatype enum of heapfile.h: attribute types understood by the scan
predicate. -/
inductive Datatype where
  | STRING
  | INTEGER
  | FLOAT
  deriving DecidableEq, Repr

/-- Operator enum of heapfile.h: comparison operators of the scan predicate. -/
inductive Operator where
  | LT
  | LTE
  | EQ
  | GTE
  | GT
  | NE
  deriving DecidableEq, Repr

/-- Record id: page number and slot number (spec section 3). -/
structure RID where
  pageNo : Int
  slotNo : Int
  deriving DecidableEq, Repr

/-- Before-first sentinel rid (heapfile.h is not in the repository; the spec
calls it the scan before-first sentinel; both components are -1 so that the
comparisons against NULLRID.pageNo and NULLRID.slotNo in scanNext line 304
behave as in the source). -/
def NULLRID : RID := ⟨-1, -1⟩

/-- Record: a byte buffer (data) plus a length field, as in the C++ struct
Record \x7b void* data; int length; \x7d.  Bytes are naturals below 256. -/
structure Record where
  data : List Nat
  length : Int
  deriving DecidableEq, Repr

/-- Page size in bytes.  Modelled from the spec: the 500-record scenario in
section 8 fixes PAGE_SIZE = 1024 (page.h is not part of this repository). -/
def PAGESIZE : Int := 1024

/-- Fixed per-page overhead.  Modelled from the spec: the scenario in
section 8 fixes DP_FIXED = 20, giving 1004 free bytes per data page. -/
def DPFIXED : Int := 20

/-- Modelled from the spec (section 6 page-layer contract; page.cpp is not
part of this repository): a data page carries its own page number, a nextPage
link with -1 as the end-of-chain sentinel, and a slot directory.  A deleted
slot is none. -/
structure DataPage where
  pageNo : Int
  nextPage : Int
  slots : List (Option Record)
  deriving DecidableEq, Repr

/-- Modelled from the spec: page init zeroes the page, records its own page
number, sets nextPage = -1 and empties the slot directory. -/
def DataPage.init (pageNo : Int) : DataPage :=
  { pageNo := pageNo, nextPage := -1, slots := [] }

/-- Bytes consumed by the records of a page.  Modelled from the spec: the
section 8 scenario (25 records of length 40 per 1004 free bytes) implies that
each live record consumes exactly its length. -/
def DataPage.usedSpace (p : DataPage) : Int :=
  (p.slots.map fun o => match o with | some r => r.length | none => 0).sum

/-- Modelled from the spec: page-layer insertRecord appends a record when it
fits in the remaining free space and reports its rid; otherwise NOSPACE.  The
rid is an out parameter in C++, assigned only on success, hence Option. -/
def DataPage.insertRecordP (p : DataPage) (rec : Record) :
    Status × DataPage × Option RID :=
  if p.usedSpace + rec.length ≤ PAGESIZE - DPFIXED then
    (Status.OK, { p with slots := p.slots ++ [some rec] },
      some ⟨p.pageNo, (p.slots.length : Int)⟩)
  else
    (Status.NOSPACE, p, none)

/-- Modelled from the spec: page-layer getRecord returns the record of a live
slot; none models the INVALIDSLOTNO failure.  The page number of the rid is
not consulted, matching the slot-directory lookup of the page layer. -/
def DataPage.getRecordP (p : DataPage) (rid : RID) : Option Record :=
  if rid.slotNo < 0 then none
  else p.slots.getD rid.slotNo.toNat none

/-- Modelled from the spec: firstRecord yields the rid of the first live
slot, or none (status NO_RECORDS) on a page without live records. -/
def DataPage.firstRecordP (p : DataPage) : Option RID :=
  ((List.range p.slots.length).find? fun i =>
      (p.slots.getD i none).isSome).map fun i => ⟨p.pageNo, (i : Int)⟩

/-- Modelled from the spec: nextRecord yields the first live slot strictly
after the given rid, or none (status ENDOFPAGE). -/
def DataPage.nextRecordP (p : DataPage) (rid : RID) : Option RID :=
  ((List.range p.slots.length).find? fun (i : Nat) =>
      decide (rid.slotNo < (i : Int)) && (p.slots.getD i none).isSome).map
    fun i => ⟨p.pageNo, (i : Int)⟩

/-- Modelled from the spec: page-layer deleteRecord clears a live slot,
failing (INVALIDSLOTNO) on an out-of-range or already-empty slot. -/
def DataPage.deleteRecordP (p : DataPage) (rid : RID) : Status × DataPage :=
  if 0 ≤ rid.slotNo ∧ (p.slots.getD rid.slotNo.toNat none).isSome then
    (Status.OK, { p with slots := p.slots.set rid.slotNo.toNat none })
  else
    (Status.INVALIDSLOTNO, p)

/-- Number of live records on a page, as an integer. -/
def DataPage.pageLive (p : DataPage) : Int :=
  ((p.slots.filter fun o => o.isSome).length : Int)

/-- Total number of live records across a list of data pages. -/
def liveCount (ps : List DataPage) : Int :=
  (ps.map DataPage.pageLive).sum

/-- File header page contents (spec section 3; the file-name field plays no
role in any claim and is omitted). -/
structure FileHdr where
  firstPage : Int
  lastPage : Int
  pageCnt : Int
  recCnt : Int
  deriving DecidableEq, Repr

/-- The on-disk state of one heap file: the header page (page number 1 in
this model) and the data pages in allocation order.  nextPageNo is the page
number the file layer hands out at the next allocation. -/
structure Disk where
  hdr : FileHdr
  pages : List DataPage
  nextPageNo : Int
  deriving DecidableEq, Repr

/-- Modelled from the spec: readPage resolves a page number on the disk
(first match, as page numbers are unique in any state the file layer
produces). -/
def Disk.findPage (d : Disk) (n : Int) : Option DataPage :=
  d.pages.find? fun p => p.pageNo == n

/-- Write a page back through its pinned frame: replace the first page with
the same page number. -/
def setPageL : List DataPage → DataPage → List DataPage
  | [], _ => []
  | q :: qs, pg => if q.pageNo == pg.pageNo then pg :: qs else q :: setPageL qs pg

/-- Disk-level write-through of a frame. -/
def Disk.setPage (d : Disk) (pg : DataPage) : Disk :=
  { d with pages := setPageL d.pages pg }

/-- Disk produced by the success path of createHeapFile (heapfile.cpp lines
20-66): the header page is allocated first (page 1), then one data page
(page 2) is allocated and initialized; the header records firstPage =
lastPage = 2, pageCnt = 1, recCnt = 0.  The file-name length check and the
abort-on-buffer-error paths are not claimed and are elided. -/
def createdDisk : Disk :=
  { hdr := { firstPage := 2, lastPage := 2, pageCnt := 1, recCnt := 0 },
    pages := [DataPage.init 2],
    nextPageNo := 3 }

/-- The state of an open heap-file handle: the shared disk, the header dirty
flag, the current-page pointer (curPage, none when null), the bookkeeping
fields of HeapFile, the predicate fields of HeapFileScan, the mark fields,
and the buffer-call counter used by the failure schedule. -/
structure HFState where
  disk : Disk
  hdrDirtyFlag : Bool
  curPage : Option Int
  curPageNo : Int
  curDirtyFlag : Bool
  curRec : RID
  offset : Int
  length : Int
  type : Datatype
  filter : Option (List Nat)
  op : Operator
  markedPageNo : Int
  markedRec : RID
  bufCtr : Nat
  deriving DecidableEq, Repr

/-- A buffer-manager failure schedule: call n fails with status e when the
schedule yields some e at n, and succeeds otherwise. -/
abbrev Sched := Nat → Option Status

/-- The reliable schedule: every buffer-manager call succeeds. -/
def noFail : Sched := fun _ => none

/-- One buffer-manager call: consult the schedule and advance the counter.
unPinPage is exactly this call; the dirty argument has no further effect in
the write-through model. -/
def bufStep (sched : Sched) (s : HFState) : Status × HFState :=
  match sched s.bufCtr with
  | some e => (e, { s with bufCtr := s.bufCtr + 1 })
  | none => (Status.OK, { s with bufCtr := s.bufCtr + 1 })

/-- Modelled from the spec: readPage pins an existing page and returns its
frame; a missing page number fails with BADPAGENO. -/
def readPage (sched : Sched) (s : HFState) (n : Int) :
    Status × Option DataPage × HFState :=
  let (st, s1) := bufStep sched s
  if st ≠ Status.OK then (st, none, s1)
  else
    match s1.disk.findPage n with
    | some pg => (Status.OK, some pg, s1)
    | none => (Status.BADPAGENO, none, s1)

/-- Modelled from the spec: allocPage appends a fresh page to the file and
returns its number.  The frame content is immaterial because every caller in
the source initializes the page immediately; it is modelled as the
initialized page. -/
def allocPage (sched : Sched) (s : HFState) : Status × Int × HFState :=
  let (st, s1) := bufStep sched s
  if st ≠ Status.OK then (st, 0, s1)
  else
    let n := s1.disk.nextPageNo
    (Status.OK, n,
      { s1 with
        disk := { s1.disk with
          pages := s1.disk.pages ++ [DataPage.init n],
          nextPageNo := n + 1 } })

/-- State after the success path of the HeapFile and HeapFileScan
constructors (heapfile.cpp lines 79-123 and 205-209): header pinned, first
data page pinned as current, curRec = NULLRID, filter = NULL.  The predicate
and mark fields are uninitialized in C++ until startScan and markScan run;
the defaults chosen here are never read before those calls on any claimed
path. -/
def openScan (d : Disk) : HFState :=
  { disk := d,
    hdrDirtyFlag := false,
    curPage := some d.hdr.firstPage,
    curPageNo := d.hdr.firstPage,
    curDirtyFlag := false,
    curRec := NULLRID,
    offset := 0,
    length := 0,
    type := Datatype.STRING,
    filter := none,
    op := Operator.EQ,
    markedPageNo := 0,
    markedRec := NULLRID,
    bufCtr := 0 }

/-- HeapFileScan::startScan (heapfile.cpp lines 211-238), translated with the
dead enum checks of lines 223 and 226 kept verbatim.  sizeof(int) =
sizeof(float) = 4. -/
def startScan (s : HFState) (offset_ length_ : Int) (type_ : Datatype)
    (filter_ : Option (List Nat)) (op_ : Operator) : Status × HFState :=
  match filter_ with
  | none => (Status.OK, { s with filter := none })
  | some f =>
    if (offset_ < 0 ∨ length_ < 1) ∨
        (type_ ≠ Datatype.STRING ∧ type_ ≠ Datatype.INTEGER ∧
          type_ ≠ Datatype.FLOAT) ∨
        ((type_ = Datatype.INTEGER ∧ length_ ≠ 4) ∨
          (type_ = Datatype.FLOAT ∧ length_ ≠ 4)) ∨
        (op_ ≠ Operator.LT ∧ op_ ≠ Operator.LTE ∧ op_ ≠ Operator.EQ ∧
          op_ ≠ Operator.GTE ∧ op_ ≠ Operator.GT ∧ op_ ≠ Operator.NE) then
      (Status.BADSCANPARM, s)
    else
      (Status.OK,
        { s with offset := offset_, length := length_, type := type_,
                 filter := some f, op := op_ })

/-- HeapFileScan::endScan (heapfile.cpp lines 241-254): unpin the current
page if any and null the slot. -/
def endScan (sched : Sched) (s : HFState) : Status × HFState :=
  match s.curPage with
  | some _ =>
    let (st, s1) := bufStep sched s
    (st, { s1 with curPage := none, curPageNo := 0, curDirtyFlag := false })
  | none => (Status.OK, s)

/-- HeapFileScan::markScan (heapfile.cpp lines 261-267): snapshot
(curPageNo, curRec). -/
def markScan (s : HFState) : Status × HFState :=
  (Status.OK, { s with markedPageNo := s.curPageNo, markedRec := s.curRec })

/-- HeapFileScan::resetScan (heapfile.cpp lines 269-289): restore the mark;
when the marked page differs from the current one, unpin the current page
(when non-null) and pin the marked page into curPage. -/
def resetScan (sched : Sched) (s : HFState) : Status × HFState :=
  if s.markedPageNo ≠ s.curPageNo then
    let (st1, s1) :=
      match s.curPage with
      | some _ => bufStep sched s
      | none => (Status.OK, s)
    if st1 ≠ Status.OK then (st1, s1)
    else
      let s2 := { s1 with curPageNo := s1.markedPageNo, curRec := s1.markedRec }
      match readPage sched s2 s2.curPageNo with
      | (Status.OK, some _, s3) =>
        (Status.OK, { s3 with curPage := some s3.curPageNo, curDirtyFlag := false })
      | (st, _, s3) => (st, s3)
  else
    (Status.OK, { s with curRec := s.markedRec })

/-- HeapFileScan::markDirty (heapfile.cpp lines 372-376). -/
def markDirty (s : HFState) : Status × HFState :=
  (Status.OK, { s with curDirtyFlag := true })

/-- HeapFileScan::deleteRecord (heapfile.cpp lines 356-368): delete the
record at curRec through the current frame, then set curDirtyFlag, decrement
header.recCnt and set hdrDirtyFlag - the counter updates happen even when
the page-layer delete failed, exactly as in the source. -/
def deleteRecord (s : HFState) : Status × HFState :=
  match s.curPage with
  | none => (Status.NULLCURPAGE, s)
  | some pn =>
    match s.disk.findPage pn with
    | none => (Status.BADPAGENO, s)
    | some pg =>
      let (st, pg1) := pg.deleteRecordP s.curRec
      let s1 := { s with disk := s.disk.setPage pg1, curDirtyFlag := true }
      (st,
        { s1 with
          disk := { s1.disk with
            hdr := { s1.disk.hdr with recCnt := s1.disk.hdr.recCnt - 1 } },
          hdrDirtyFlag := true })

/-- HeapFile::getRecord (heapfile.cpp lines 169-202).  When the rid lives on
another page the current page is unpinned and the target page is read into a
local pointer; the source updates curPageNo, curDirtyFlag and curRec but
never the curPage pointer itself, and on a failed read it returns with every
cur field untouched. -/
def getRecordHF (sched : Sched) (s : HFState) (rid : RID) :
    Status × Option Record × HFState :=
  if rid.pageNo ≠ s.curPageNo then
    let (st1, s1) := bufStep sched s
    if st1 ≠ Status.OK then (st1, none, s1)
    else
      match readPage sched s1 rid.pageNo with
      | (Status.OK, some pg, s2) =>
        let s3 := { s2 with curPageNo := rid.pageNo, curDirtyFlag := false,
                            curRec := NULLRID }
        match pg.getRecordP rid with
        | some r => (Status.OK, some r, { s3 with curRec := rid })
        | none => (Status.INVALIDSLOTNO, none, s3)
      | (st2, _, s2) => (st2, none, s2)
  else
    match s.curPage with
    | none => (Status.NULLCURPAGE, none, s)
    | some pn =>
      match s.disk.findPage pn with
      | none => (Status.BADPAGENO, none, s)
      | some pg =>
        match pg.getRecordP rid with
        | some r => (Status.OK, some r, { s with curRec := rid })
        | none => (Status.INVALIDSLOTNO, none, s)

/-- Little-endian value of a byte list (memcpy of the bytes into the low end
of a machine word). -/
def decodeUInt (bs : List Nat) : Nat :=
  bs.foldr (fun b acc => b + 256 * acc) 0

/-- Interpret a 4-byte little-endian buffer as a twos-complement int. -/
def decodeInt32 (bs : List Nat) : Int :=
  let u := decodeUInt bs
  if (u : Int) < 2 ^ 31 then (u : Int) else (u : Int) - 2 ^ 32

/-- Wrap an integer into the twos-complement int range, the behaviour of the
32-bit subtraction iattr - ifltr in matchRec line 399. -/
def wrap32 (n : Int) : Int :=
  (n + 2 ^ 31) % 2 ^ 32 - 2 ^ 31

/-- strncmp over byte lists: difference of the first differing bytes, zero on
a common NUL or after n bytes.  Reading past a buffer end is undefined in C;
a missing byte is modelled as NUL. -/
def strncmpB : List Nat → List Nat → Nat → Int
  | _, _, 0 => 0
  | [], [], _ + 1 => 0
  | [], b :: _, _ + 1 => 0 - (b : Int)
  | a :: _, [], _ + 1 => (a : Int)
  | a :: as, b :: bs, n + 1 =>
    if a ≠ b then (a : Int) - (b : Int)
    else if a = 0 then 0 else strncmpB as bs n

/-- The comparison switch of matchRec lines 420-427, applied to the sign of
diff. -/
def opTest (op : Operator) (diff : Int) : Bool :=
  match op with
  | Operator.LT => diff < 0
  | Operator.LTE => diff ≤ 0
  | Operator.EQ => diff = 0
  | Operator.GTE => diff ≥ 0
  | Operator.GT => diff > 0
  | Operator.NE => diff ≠ 0

/-- Ordering key of an IEEE-754 single by its bit pattern: monotone in the
represented value for every non-NaN float, and zero exactly on plus and
minus zero. -/
def floatKey (bs : List Nat) : Int :=
  let u : Int := (decodeUInt bs : Int) % 2 ^ 32
  if u < 2 ^ 31 then u else 2 ^ 31 - u

/-- HeapFileScan::matchRec (heapfile.cpp lines 378-430).  The INTEGER branch
copies length bytes of the record and of the filter into ints and subtracts
them in int arithmetic (wrapping; the later conversion of the int difference
to the float diff preserves sign and zeroness for every value in int range,
so the comparison is modelled on the wrapped integer difference).  The FLOAT
branch compares the decoded singles through their order-preserving bit keys;
NaN is not modelled and no claim depends on this branch.  The STRING branch
is strncmp. -/
def matchRec (s : HFState) (rec : Record) : Bool :=
  match s.filter with
  | none => true
  | some flt =>
    if s.offset + s.length - 1 ≥ rec.length then false
    else
      let diff : Int :=
        match s.type with
        | Datatype.INTEGER =>
          wrap32 (decodeInt32 ((rec.data.drop s.offset.toNat).take s.length.toNat) -
            decodeInt32 (flt.take s.length.toNat))
        | Datatype.FLOAT =>
          floatKey ((rec.data.drop s.offset.toNat).take s.length.toNat) -
            floatKey (flt.take s.length.toNat)
        | Datatype.STRING =>
          strncmpB (rec.data.drop s.offset.toNat) flt s.length.toNat
      opTest s.op diff

/-- HeapFileScan::scanNext (heapfile.cpp lines 292-344), fuelled: none means
the fuel ran out (the source loops forever on such inputs, since tmpRid is
never advanced past a non-matching record).  tmp is the cursor snapshot of
line 301, captured once and never updated; nextRid is the uninitialized
local of line 295, threaded so that the paths that read it before any
assignment stay explicit. -/
def scanNextGo (sched : Sched) : Nat → HFState → RID → RID → Option (Status × HFState)
  | 0, _, _, _ => none
  | fuel + 1, s, tmp, nextRid =>
    match s.curPage with
    | none => some (Status.NULLCURPAGE, s)
    | some pn =>
      match s.disk.findPage pn with
      | none => some (Status.BADPAGENO, s)
      | some pg =>
        let (st, nextRid') :=
          if tmp.pageNo = NULLRID.pageNo ∧ s.curRec.slotNo = NULLRID.slotNo then
            match pg.firstRecordP with
            | some r => (Status.OK, r)
            | none => (Status.NORECORDS, nextRid)
          else
            match pg.nextRecordP tmp with
            | some r => (Status.OK, r)
            | none => (Status.ENDOFPAGE, nextRid)
        if st = Status.ENDOFPAGE then
          if pg.nextPage = -1 then some (Status.FILEEOF, s)
          else
            let (st1, s1) := bufStep sched s
            if st1 ≠ Status.OK then some (st1, s1)
            else
              match readPage sched s1 pg.nextPage with
              | (Status.OK, some _, s2) =>
                scanNextGo sched fuel
                  { s2 with curPageNo := pg.nextPage, curPage := some pg.nextPage,
                            curDirtyFlag := false, curRec := NULLRID }
                  tmp nextRid'
              | (st2, _, s2) => some (st2, s2)
        else
          match pg.getRecordP nextRid' with
          | none => some (Status.INVALIDSLOTNO, s)
          | some rec =>
            if matchRec s rec then some (Status.OK, { s with curRec := nextRid' })
            else scanNextGo sched fuel s tmp nextRid'

/-- scanNext with its out parameter.  The source never assigns outRid on any
path (the found rid only reaches curRec), so the out value returned is the
value the caller passed in. -/
def scanNext (sched : Sched) (nextRid0 : RID) (fuel : Nat) (s : HFState)
    (outRid : RID) : Option (Status × RID × HFState) :=
  (scanNextGo sched fuel s s.curRec nextRid0).map fun r => (r.1, outRid, r.2)

/-- InsertFileScan::insertRecord lines 470-484: when the cursor is not on
header.lastPage, unpin the current page and pin the last page as current. -/
def insertMoveToLast (sched : Sched) (s : HFState) : Status × HFState :=
  if s.curPageNo ≠ s.disk.hdr.lastPage then
    let (st1, s1) := bufStep sched s
    if st1 ≠ Status.OK then (st1, s1)
    else
      match readPage sched s1 s1.disk.hdr.lastPage with
      | (Status.OK, some _, s2) =>
        (Status.OK,
          { s2 with curPage := some s2.disk.hdr.lastPage,
                    curPageNo := s2.disk.hdr.lastPage, curDirtyFlag := false })
      | (st2, _, s2) => (st2, s2)
  else
    (Status.OK, s)

/-- InsertFileScan::insertRecord lines 488-507 (the NOSPACE branch): unpin
the full page, allocate and initialize a fresh page, record it as
header.lastPage, bump header.pageCnt and make it current.  The source never
links the old last page to the new one (no setNextPage call), so the fresh
page joins the file but not the nextPage chain. -/
def insertGrow (sched : Sched) (s : HFState) : Status × HFState :=
  let (st1, s1) := bufStep sched s
  if st1 ≠ Status.OK then (st1, s1)
  else
    match allocPage sched s1 with
    | (Status.OK, n, s2) =>
      let s3 := { s2 with disk := s2.disk.setPage (DataPage.init n) }
      let s4 :=
        { s3 with
          disk := { s3.disk with
            hdr := { s3.disk.hdr with
              lastPage := n,
              pageCnt := s3.disk.hdr.pageCnt + 1 } } }
      (Status.OK,
        { s4 with curPage := some n, curPageNo := n, curDirtyFlag := false,
                  curRec := NULLRID })
    | (st2, _, s2) => (st2, s2)

/-- InsertFileScan::insertRecord lines 515-520: increment header.recCnt, set
curRec and the out rid, mark the frame dirty and return OK.  The source does
not set hdrDirtyFlag here. -/
def finishInsert (s : HFState) (rid : RID) : Status × RID × HFState :=
  (Status.OK, rid,
    { s with
      disk := { s.disk with
        hdr := { s.disk.hdr with recCnt := s.disk.hdr.recCnt + 1 } },
      curRec := rid, curDirtyFlag := true })

/-- InsertFileScan::insertRecord (heapfile.cpp lines 453-521), parametric in
the page-layer insert pIns (claims about the unchecked retry quantify over
it) and in rid0, the value of the uninitialized local rid of line 458, which
survives to curRec and outRid when no page-layer insert assigns it.  The
status of the retried insert of line 513 is not checked, as in the source.
The two dead deref arms after insertGrow are unreachable: a successful grow
always leaves curPage on the freshly appended page. -/
def insertRecord (sched : Sched)
    (pIns : DataPage → Record → Status × DataPage × Option RID)
    (rid0 : RID) (s : HFState) (rec : Record) : Status × RID × HFState :=
  if rec.length < 0 ∨ PAGESIZE - DPFIXED < rec.length then
    (Status.INVALIDRECLEN, NULLRID, s)
  else
    let (stm, sm) := insertMoveToLast sched s
    if stm ≠ Status.OK then (stm, NULLRID, sm)
    else
      match sm.curPage with
      | none => (Status.NULLCURPAGE, NULLRID, sm)
      | some pn =>
        match sm.disk.findPage pn with
        | none => (Status.BADPAGENO, NULLRID, sm)
        | some pg =>
          match pIns pg rec with
          | (Status.NOSPACE, pg1, _) =>
            let sw := { sm with disk := sm.disk.setPage pg1 }
            let (stg, sg) := insertGrow sched sw
            if stg ≠ Status.OK then (stg, NULLRID, sg)
            else
              match sg.curPage with
              | none => (Status.NULLCURPAGE, NULLRID, sg)
              | some pn2 =>
                match sg.disk.findPage pn2 with
                | none => (Status.BADPAGENO, NULLRID, sg)
                | some pg2 =>
                  let (_, pg3, orid2) := pIns pg2 rec
                  finishInsert { sg with disk := sg.disk.setPage pg3 }
                    (orid2.getD rid0)
          | (Status.OK, pg1, orid1) =>
            finishInsert { sm with disk := sm.disk.setPage pg1 }
              (orid1.getD rid0)
          | (st1, pg1, _) =>
            (st1, NULLRID, { sm with disk := sm.disk.setPage pg1 })

/-- insertRecord with the modelled page layer and NULLRID standing in for
the uninitialized rid local (never read on the paths the model exercises
with this page layer, because its inserts assign the rid on every success
and the retry on a fresh page always succeeds). -/
def insertRecordM (sched : Sched) (s : HFState) (rec : Record) :
    Status × RID × HFState :=
  insertRecord sched DataPage.insertRecordP NULLRID s rec

/-- One public operation on an open handle, with the call arguments (and for
scanNext the fuel bound and the two uninitialized-value parameters of the
model). -/
inductive HFOp where
  | ins (rec : Record)
  | del
  | scan (fuel : Nat) (nx outR : RID)
  | getRec (rid : RID)
  | startS (off len : Int) (t : Datatype) (flt : Option (List Nat)) (op : Operator)
  | mark
  | reset
  | dirty
  | endS
  deriving DecidableEq, Repr

/-- Apply one operation.  An insert or delete that does not return OK yields
none, so that a completed run is exactly a sequence in which every
insertRecord and every deleteRecord returned OK; a scanNext that runs out of
fuel (a diverging call in the source) also yields none; every other status
of the remaining operations is allowed and its state change kept. -/
def runOp (sched : Sched) (s : HFState) : HFOp → Option HFState
  | HFOp.ins rec =>
    match insertRecordM sched s rec with
    | (Status.OK, _, s') => some s'
    | _ => none
  | HFOp.del =>
    match deleteRecord s with
    | (Status.OK, s') => some s'
    | _ => none
  | HFOp.scan f nx outR => (scanNext sched nx f s outR).map fun r => r.2.2
  | HFOp.getRec rid => some (getRecordHF sched s rid).2.2
  | HFOp.startS o l t fl op => some (startScan s o l t fl op).2
  | HFOp.mark => some (markScan s).2
  | HFOp.reset => some (resetScan sched s).2
  | HFOp.dirty => some (markDirty s).2
  | HFOp.endS => some (endScan sched s).2

/-- Run a sequence of operations. -/
def runOps (sched : Sched) (s : HFState) : List HFOp → Option HFState
  | [] => some s
  | op :: ops =>
    match runOp sched s op with
    | some s' => runOps sched s' ops
    | none => none

/-- Structural well-formedness of the disk together with the two counter
invariants the heap layer actually maintains: page numbers are non-negative
and below the allocation cursor, header.pageCnt counts the data pages of the
file, header.recCnt counts the live records, every nextPage link is -1 (the
source never calls setNextPage), and the first data page exists. -/
def GoodDisk (d : Disk) : Prop :=
  (∀ p ∈ d.pages, 0 ≤ p.pageNo ∧ p.pageNo < d.nextPageNo) ∧
  0 ≤ d.nextPageNo ∧
  d.hdr.pageCnt = (d.pages.length : Int) ∧
  d.hdr.recCnt = liveCount d.pages ∧
  (∀ p ∈ d.pages, p.nextPage = -1) ∧
  (d.findPage d.hdr.firstPage).isSome

/-- Walk the nextPage chain for at most fuel steps, counting the pages
found. -/
def chainCount (d : Disk) : Nat → Int → Nat
  | 0, _ => 0
  | fuel + 1, n =>
    match d.findPage n with
    | none => 0
    | some p => 1 + chainCount d fuel p.nextPage

/-- Number of data pages reachable from header.firstPage by following
nextPage links (the chain is acyclic in every reachable state, so the fuel
pages.length is enough). -/
def reachCount (d : Disk) : Nat :=
  chainCount d d.pages.length d.hdr.firstPage

/-- Zero or more scanNext calls that returned OK, under the reliable
schedule, with arbitrary fuel and arbitrary values for the two
uninitialized-local parameters. -/
inductive ScanSteps : HFState → HFState → Prop where
  | refl (s : HFState) : ScanSteps s s
  | step {s s' s'' : HFState} (f : Nat) (nx outR r : RID)
      (h : scanNext noFail nx f s outR = some (Status.OK, r, s'))
      (htail : ScanSteps s' s'') : ScanSteps s s''

/-- The fields of the handle state that scanNext reads: two states that
agree on them produce identical scan behaviour. -/
def ScanEq (s t : HFState) : Prop :=
  s.disk = t.disk ∧ s.curPage = t.curPage ∧ s.curPageNo = t.curPageNo ∧
  s.curRec = t.curRec ∧ s.offset = t.offset ∧ s.length = t.length ∧
  s.type = t.type ∧ s.filter = t.filter ∧ s.op = t.op

/-- A 40-byte record (the content bytes play no role in layout or counting;
the length field drives the space accounting, as in the source, where the
record is an opaque buffer). -/
def recLen40 : Record := ⟨[], 40⟩

/-- A 600-byte record: two of them cannot share a 1004-byte data page. -/
def recLen600 : Record := ⟨[], 600⟩

/-- A freshly created and opened heap file. -/
def hfS0 : HFState := openScan createdDisk

/-- Five hundred insertions of 40-byte records (spec section 8, scenario 2). -/
def ops500 : List HFOp := List.replicate 500 (HFOp.ins recLen40)

/-- One successful insert followed by one successful delete. -/
def insDel2 : List HFOp := [HFOp.ins recLen40, HFOp.del]

/-- First insertion of the two-page scenario. -/
def c1i1 : Status × RID × HFState := insertRecordM noFail hfS0 recLen600

/-- Second insertion: the first data page is full, so the file grows. -/
def c1i2 : Status × RID × HFState := insertRecordM noFail c1i1.2.2 recLen600

/-- The file of the two-page scenario reopened with a fresh scan and
startScan called with a null filter. -/
def c1scanS : HFState :=
  (startScan (openScan c1i2.2.2.disk) 0 0 Datatype.STRING none Operator.EQ).2

/-- A recognizable junk value standing for the callers uninitialized outRid
variable. -/
def junkRid : RID := ⟨-7, -7⟩

/-- State after the first scanNext of the two-page scenario. -/
def c1s5 : HFState :=
  ((scanNext noFail NULLRID 10 c1scanS junkRid).map fun r => r.2.2).getD c1scanS

/-- Result of the first insertRecord on a fresh file. -/
def c4r : Status × RID × HFState := insertRecordM noFail hfS0 recLen40

/-- A schedule whose second buffer call (call number 1) fails: the unpin of
the previous page succeeds and the following pin fails. -/
def sched1 : Sched := fun n => if n == 1 then some Status.BUFFEREXCEEDED else none

/-- Scan configured with an INTEGER predicate, filter value -2^31, op GT. -/
def c7s : HFState :=
  (startScan (openScan createdDisk) 0 4 Datatype.INTEGER
    (some [0, 0, 0, 128]) Operator.GT).2

/-- A record whose attribute decodes to 2^31 - 1. -/
def c7rec : Record := ⟨[255, 255, 255, 127], 4⟩

/-- Scan configured with an INTEGER predicate, filter value 5, op GT. -/
def c7wS : HFState :=
  (startScan (openScan createdDisk) 0 4 Datatype.INTEGER
    (some [5, 0, 0, 0]) Operator.GT).2

/-- A record whose attribute decodes to 7. -/
def c7wRec : Record := ⟨[7, 0, 0, 0], 4⟩

/-- A handcrafted disk whose first data page is linked to a second one, to
exercise the page-advance path of scanNext. -/
def c6bDisk : Disk :=
  { hdr := { firstPage := 2, lastPage := 3, pageCnt := 2, recCnt := 1 },
    pages := [⟨2, 3, [some recLen40]⟩, ⟨3, -1, []⟩],
    nextPageNo := 4 }

/-- Scan over that disk positioned on the last record of the first page. -/
def c6bS : HFState := { openScan c6bDisk with curRec := ⟨2, 0⟩ }

/-- A handle whose cursor is away from header.lastPage, to exercise the
move-to-last path of insertRecord. -/
def c6cS : HFState := { openScan createdDisk with curPageNo := 0 }

/-- A file holding two 40-byte records on its first data page. -/
def c8d : Disk :=
  (insertRecordM noFail (insertRecordM noFail hfS0 recLen40).2.2 recLen40).2.2.disk

/-- That file reopened with a fresh scan. -/
def c8s : HFState := openScan c8d

/-- State right after markScan. -/
def c8s1 : HFState := (markScan c8s).2

/-- State after the first post-mark scanNext (cursor on slot 0). -/
def c8s2 : HFState := { c8s1 with curRec := ⟨2, 0⟩ }

/-- State after one further scanNext advance (cursor on slot 1). -/
def c8s3 : HFState := { c8s2 with curRec := ⟨2, 1⟩ }

/-- State after resetScan (cursor back on the marked NULLRID position). -/
def c8s4 : HFState := { c8s3 with curRec := NULLRID }

/-- A page-layer insert that always reports NOSPACE and never assigns the
rid out parameter, used to exercise the unchecked retry of line 513. -/
def pInsFail : DataPage → Record → Status × DataPage × Option RID :=
  fun p _ => (Status.NOSPACE, p, none)

/-- A recognizable junk value standing for the uninitialized rid local of
insertRecord line 458. -/
def rid9 : RID := ⟨-9, -9⟩

set_option maxRecDepth 10000

/-- C1: the claim says that reopening after a sequence of inserts and
scanning with no filter yields exactly the insertion rids in order, then
FILE_EOF.  The code violates this: insertions of two 600-byte records return
rids (2,0) and (3,0), the second after growing the file, but the unfiltered
scan finds only (2,0) - placed in curRec, while the outRid parameter is
never assigned and keeps the callers junk value - and then reports FILE_EOF,
because insertRecord never links the old last page to the new one, so the
nextPage chain ends after the first data page. -/
theorem C1_failing_run :
    (c1i1.1 = Status.OK ∧ c1i1.2.1 = ⟨2, 0⟩) ∧
    (c1i2.1 = Status.OK ∧ c1i2.2.1 = ⟨3, 0⟩) ∧
    scanNext noFail NULLRID 10 c1scanS junkRid = some (Status.OK, junkRid, c1s5) ∧
    c1s5.curRec = ⟨2, 0⟩ ∧ junkRid ≠ (⟨2, 0⟩ : RID) ∧
    scanNext noFail NULLRID 10 c1s5 junkRid = some (Status.FILEEOF, junkRid, c1s5) := by
  decide

/-- C4: at the first insertRecord on a fresh file the call returns OK,
increments header.recCnt, sets curRec and outRid to the page-layer rid and
sets curDirtyFlag - but it leaves hdrDirtyFlag false, because the source
never sets it in insertRecord, contradicting the claim. -/
theorem C4_insert_effects_at_failing_input :
    c4r.1 = Status.OK ∧
    c4r.2.2.disk.hdr.recCnt = hfS0.disk.hdr.recCnt + 1 ∧
    c4r.2.1 = ⟨2, 0⟩ ∧ c4r.2.2.curRec = ⟨2, 0⟩ ∧
    c4r.2.2.curDirtyFlag = true ∧
    c4r.2.2.hdrDirtyFlag = false := by
  decide

/-- C6 counterexample: a getRecord call that successfully unpins the current
page (buffer call 0) and then fails to pin the target page (buffer call 1)
returns the error, yet the current-page slot still holds the old pointer -
it is not null as the claim states. -/
theorem C6_counterexample :
    (getRecordHF sched1 hfS0 ⟨9, 0⟩).1 = Status.BUFFEREXCEEDED ∧
    (getRecordHF sched1 hfS0 ⟨9, 0⟩).2.2.curPage = some 2 ∧
    (getRecordHF sched1 hfS0 ⟨9, 0⟩).2.2.curPage ≠ none := by
  decide

/-- C2 counterexample: after 500 successful insertions of 40-byte records
the header reads pageCnt = 20, not the claimed 21, and only 1 data page is
reachable from header.firstPage via nextPage links, so pageCnt is neither
21 nor 1 plus the reachable count. -/
theorem C2_counterexample :
    (runOps noFail hfS0 ops500).map
        (fun s => (s.disk.hdr.pageCnt, reachCount s.disk)) = some (20, 1) ∧
    (20 : Int) ≠ 21 ∧ (20 : Int) ≠ 1 + 1 := by
  decide

/-- C7 counterexample: with an INTEGER predicate (filter -2^31, op GT) and a
record attribute 2^31 - 1, the exact difference attr - flt is positive, so
the claim demands a match, but matchRec computes the difference in wrapping
32-bit arithmetic (giving -1) and rejects the record. -/
theorem C7_counterexample :
    decodeInt32 c7rec.data - decodeInt32 [0, 0, 0, 128] > 0 ∧
    c7s.op = Operator.GT ∧
    matchRec c7s c7rec = false := by
  decide

/-- Helper: wrapping is the identity on values already in int range. -/
theorem wrap32_eq_of_range (n : Int) (h1 : -(2 ^ 31) ≤ n) (h2 : n < 2 ^ 31) :
    wrap32 n = n := by
  unfold wrap32
  omega

/-- Helper: inversion of a successful startScan with a non-null filter: the
parameters passed validation and the resulting state stores them. -/
theorem startScan_ok_some (s : HFState) (off len : Int) (t : Datatype)
    (f : List Nat) (op : Operator) (s1 : HFState)
    (h : startScan s off len t (some f) op = (Status.OK, s1)) :
    0 ≤ off ∧ 1 ≤ len ∧
    s1 = { s with offset := off, length := len, type := t, filter := some f,
                  op := op } := by
  have hred : startScan s off len t (some f) op =
      if (off < 0 ∨ len < 1) ∨
          (t ≠ Datatype.STRING ∧ t ≠ Datatype.INTEGER ∧ t ≠ Datatype.FLOAT) ∨
          ((t = Datatype.INTEGER ∧ len ≠ 4) ∨ (t = Datatype.FLOAT ∧ len ≠ 4)) ∨
          (op ≠ Operator.LT ∧ op ≠ Operator.LTE ∧ op ≠ Operator.EQ ∧
            op ≠ Operator.GTE ∧ op ≠ Operator.GT ∧ op ≠ Operator.NE) then
        (Status.BADSCANPARM, s)
      else
        (Status.OK,
          { s with offset := off, length := len, type := t, filter := some f,
                   op := op }) := rfl
  rw [hred] at h
  split at h
  · have hfst := congrArg Prod.fst h
    simp at hfst
  · rename_i hc
    simp only [not_or] at hc
    obtain ⟨⟨ha, hb⟩, -⟩ := hc
    injection h with h1 h2
    exact ⟨by omega, by omega, h2.symm⟩

/-- C9: startScan with a null filter disables the predicate and returns OK;
with a filter present it returns BAD_SCAN_PARM exactly under the claimed
parameter violations (the type and operator membership disjuncts are
vacuously false over the enum types, exactly as in the source); a successful
start stores the predicate and leaves curRec and curPageNo unchanged. -/
theorem C9_startScan_validation :
    (∀ (s : HFState) (off len : Int) (t : Datatype) (op : Operator),
        startScan s off len t none op = (Status.OK, { s with filter := none })) ∧
    (∀ (s : HFState) (off len : Int) (t : Datatype) (f : List Nat) (op : Operator),
        ((startScan s off len t (some f) op).1 = Status.BADSCANPARM ↔
          off < 0 ∨ len < 1 ∨
            (t ≠ Datatype.STRING ∧ t ≠ Datatype.INTEGER ∧ t ≠ Datatype.FLOAT) ∨
            (t = Datatype.INTEGER ∧ len ≠ 4) ∨ (t = Datatype.FLOAT ∧ len ≠ 4) ∨
            (op ≠ Operator.LT ∧ op ≠ Operator.LTE ∧ op ≠ Operator.EQ ∧
              op ≠ Operator.GTE ∧ op ≠ Operator.GT ∧ op ≠ Operator.NE))) ∧
    (∀ (s : HFState) (off len : Int) (t : Datatype) (f : List Nat)
        (op : Operator) (s1 : HFState),
        startScan s off len t (some f) op = (Status.OK, s1) →
          s1 = { s with offset := off, length := len, type := t,
                        filter := some f, op := op } ∧
          s1.curRec = s.curRec ∧ s1.curPageNo = s.curPageNo) := by
  refine ⟨fun s off len t op => rfl, fun s off len t f op => ?_,
          fun s off len t f op s1 h => ?_⟩
  · have hred : startScan s off len t (some f) op =
        if (off < 0 ∨ len < 1) ∨
            (t ≠ Datatype.STRING ∧ t ≠ Datatype.INTEGER ∧ t ≠ Datatype.FLOAT) ∨
            ((t = Datatype.INTEGER ∧ len ≠ 4) ∨ (t = Datatype.FLOAT ∧ len ≠ 4)) ∨
            (op ≠ Operator.LT ∧ op ≠ Operator.LTE ∧ op ≠ Operator.EQ ∧
              op ≠ Operator.GTE ∧ op ≠ Operator.GT ∧ op ≠ Operator.NE) then
          (Status.BADSCANPARM, s)
        else
          (Status.OK,
            { s with offset := off, length := len, type := t, filter := some f,
                     op := op }) := rfl
    rw [hred]
    split
    · rename_i hc
      constructor
      · intro _
        rcases hc with (h | h) | h | (h | h) | h
        · exact .inl h
        · exact .inr (.inl h)
        · exact .inr (.inr (.inl h))
        · exact .inr (.inr (.inr (.inl h)))
        · exact .inr (.inr (.inr (.inr (.inl h))))
        · exact .inr (.inr (.inr (.inr (.inr h))))
      · intro _
        rfl
    · rename_i hc
      constructor
      · intro hx
        simp at hx
      · intro hx
        exfalso
        apply hc
        rcases hx with h | h | h | h | h | h
        · exact .inl (.inl h)
        · exact .inl (.inr h)
        · exact .inr (.inl h)
        · exact .inr (.inr (.inl (.inl h)))
        · exact .inr (.inr (.inl (.inr h)))
        · exact .inr (.inr (.inr h))
  · obtain ⟨-, -, h3⟩ := startScan_ok_some _ _ _ _ _ _ _ h
    exact ⟨h3, by rw [h3], by rw [h3]⟩

/-- C9 witness: a concrete valid INTEGER predicate is accepted and stored,
leaving the cursor fields untouched. -/
theorem C9_startScan_validation_witness :
    c7wS = { openScan createdDisk with
             offset := 0, length := 4, type := Datatype.INTEGER,
             filter := some [5, 0, 0, 0], op := Operator.GT } ∧
    c7wS.curRec = (openScan createdDisk).curRec ∧
    c7wS.curPageNo = (openScan createdDisk).curPageNo :=
  C9_startScan_validation.2.2 (openScan createdDisk) 0 4 Datatype.INTEGER
    [5, 0, 0, 0] Operator.GT c7wS (by decide)

/-- C7: amended.  For a predicate configured through a successful startScan
with type INTEGER (hence length = sizeof(int) = 4) and a record whose
attribute window lies inside the record, matchRec applies op to the sign of
the wrapping 32-bit difference of the decoded attribute and filter values;
this equals the exact difference exactly when attr - flt fits in int range,
so the claim holds except on overflow. -/
theorem C7_amended_wrapped_difference (s : HFState) (off : Int) (f : List Nat)
    (op : Operator) (s1 : HFState) (rec : Record)
    (hs : startScan s off 4 Datatype.INTEGER (some f) op = (Status.OK, s1))
    (hb : off + 4 ≤ rec.length) :
    matchRec s1 rec =
      opTest op (wrap32 (decodeInt32 ((rec.data.drop off.toNat).take 4) -
        decodeInt32 (f.take 4))) ∧
    (∀ d : Int,
        d = decodeInt32 ((rec.data.drop off.toNat).take 4) -
            decodeInt32 (f.take 4) →
        -(2 ^ 31) ≤ d → d < 2 ^ 31 → matchRec s1 rec = opTest op d) := by
  obtain ⟨hoff, -, h3⟩ := startScan_ok_some _ _ _ _ _ _ _ hs
  subst h3
  have hmain : matchRec
      { s with offset := off, length := 4, type := Datatype.INTEGER,
               filter := some f, op := op } rec =
      opTest op (wrap32 (decodeInt32 ((rec.data.drop off.toNat).take 4) -
        decodeInt32 (f.take 4))) := by
    show (if off + 4 - 1 ≥ rec.length then false
          else opTest op (wrap32 (decodeInt32 ((rec.data.drop off.toNat).take 4) -
            decodeInt32 (f.take 4)))) = _
    rw [if_neg (by omega)]
  refine ⟨hmain, fun d hd h1 h2 => ?_⟩
  rw [hmain, ← hd, wrap32_eq_of_range d h1 h2, hd]

/-- C7 witness: attribute 7 against filter 5 under GT: the difference fits
in int range and the record matches, as the amended claim prescribes. -/
theorem C7_amended_wrapped_difference_witness :
    matchRec c7wS c7wRec =
      opTest Operator.GT (wrap32 (decodeInt32 ((c7wRec.data.drop (0 : Int).toNat).take 4) -
        decodeInt32 (([5, 0, 0, 0] : List Nat).take 4))) ∧
    matchRec c7wS c7wRec = opTest Operator.GT 2 :=
  ⟨(C7_amended_wrapped_difference (openScan createdDisk) 0 [5, 0, 0, 0]
      Operator.GT c7wS c7wRec (by decide) (by decide)).1,
   (C7_amended_wrapped_difference (openScan createdDisk) 0 [5, 0, 0, 0]
      Operator.GT c7wS c7wRec (by decide) (by decide)).2 2 (by decide)
      (by decide) (by decide)⟩

/-- C5: the claim says the first scanNext on a freshly created heap file
(one empty data page) returns FILE_EOF.  The code instead reaches the
page-layer getRecord with an uninitialized rid: firstRecord on the empty
page reports NO_RECORDS, which the loop only compares against ENDOFPAGE, so
for every value of the uninitialized locals, every positive fuel bound and
every predicate configuration the call returns the page-layer INVALIDSLOTNO
error - never FILE_EOF. -/
theorem C5_empty_scan_status (nx outR : RID) (fuel : Nat) (o l : Int)
    (t : Datatype) (flt : Option (List Nat)) (op : Operator) :
    scanNext noFail nx (fuel + 1)
      { openScan createdDisk with
        offset := o, length := l, type := t, filter := flt, op := op } outR =
      some (Status.INVALIDSLOTNO, outR,
        { openScan createdDisk with
          offset := o, length := l, type := t, filter := flt, op := op }) := by
  simp [scanNext, scanNextGo, openScan, createdDisk, Disk.findPage,
        DataPage.init, DataPage.firstRecordP, DataPage.getRecordP, NULLRID,
        List.find?, List.getD]

/-- C6: amended.  When getRecord, scanNext or insertRecord successfully
unpins the previous current page (buffer call at the current counter) and
then fails to pin the next page, the call returns the error status and
leaves the handle state - in particular the current-page slot curPage -
exactly as it was apart from the advanced buffer counter: the slot still
holds the pointer to the now-unpinned page and is not nulled (only endScan
nulls it).  Each conjunct states the full resulting state, so curPage,
curPageNo, curRec and the dirty flags are all visibly unchanged. -/
theorem C6_amended_curPage_unchanged :
    (∀ (s : HFState) (rid : RID) (sched : Sched) (e : Status),
        rid.pageNo ≠ s.curPageNo → sched s.bufCtr = none →
        sched (s.bufCtr + 1) = some e → e ≠ Status.OK →
        getRecordHF sched s rid = (e, none, { s with bufCtr := s.bufCtr + 2 })) ∧
    (∀ (s : HFState) (pn : Int) (pg : DataPage) (nx outR : RID) (fuel : Nat)
        (sched : Sched) (e : Status),
        s.curPage = some pn → s.disk.findPage pn = some pg →
        s.curRec.pageNo ≠ NULLRID.pageNo → pg.nextRecordP s.curRec = none →
        pg.nextPage ≠ -1 → sched s.bufCtr = none →
        sched (s.bufCtr + 1) = some e → e ≠ Status.OK →
        scanNext sched nx (fuel + 1) s outR =
          some (e, outR, { s with bufCtr := s.bufCtr + 2 })) ∧
    (∀ (s : HFState) (rec : Record) (sched : Sched) (e : Status),
        0 ≤ rec.length → rec.length ≤ PAGESIZE - DPFIXED →
        s.curPageNo ≠ s.disk.hdr.lastPage → sched s.bufCtr = none →
        sched (s.bufCtr + 1) = some e → e ≠ Status.OK →
        insertRecordM sched s rec =
          (e, NULLRID, { s with bufCtr := s.bufCtr + 2 })) := by
  refine ⟨fun s rid sched e hne h0 h1 he => ?_,
          fun s pn pg nx outR fuel sched e hcp hfind hcr hnext hnp h0 h1 he => ?_,
          fun s rec sched e hl0 hl1 hne h0 h1 he => ?_⟩
  · unfold getRecordHF readPage bufStep
    rw [if_pos hne]
    simp only [h0, h1]
    simp only [ne_eq, not_true_eq_false, if_false, ite_false, reduceIte, he,
      not_false_eq_true, if_true, ite_true]
  · unfold scanNext scanNextGo readPage bufStep
    simp only [hcp, hfind, hnext, h0, h1,
      eq_false (show ¬(s.curRec.pageNo = NULLRID.pageNo ∧
        s.curRec.slotNo = NULLRID.slotNo) from fun hx => hcr hx.1),
      if_false, ite_false]
    simp only [ne_eq, not_true_eq_false, if_false, ite_false, reduceIte, he,
      not_false_eq_true, if_true, ite_true, hnp, Option.map_some]
    rfl
  · unfold insertRecordM insertRecord insertMoveToLast readPage bufStep
    rw [if_neg (by omega)]
    simp only [h0, h1, hne, ne_eq, not_true_eq_false, if_false, ite_false,
      reduceIte, he, not_false_eq_true, if_true, ite_true]

/-- C6 witness: the three amended statements applied at concrete states - a
cross-page getRecord, a scanNext page advance over a handcrafted linked
page, and an insertRecord away from the last page - each with the schedule
whose second buffer call fails. -/
theorem C6_amended_curPage_unchanged_witness :
    getRecordHF sched1 hfS0 ⟨9, 0⟩ =
      (Status.BUFFEREXCEEDED, none, { hfS0 with bufCtr := hfS0.bufCtr + 2 }) ∧
    scanNext sched1 NULLRID 3 c6bS junkRid =
      some (Status.BUFFEREXCEEDED, junkRid, { c6bS with bufCtr := c6bS.bufCtr + 2 }) ∧
    insertRecordM sched1 c6cS recLen40 =
      (Status.BUFFEREXCEEDED, NULLRID, { c6cS with bufCtr := c6cS.bufCtr + 2 }) :=
  ⟨C6_amended_curPage_unchanged.1 hfS0 ⟨9, 0⟩ sched1 Status.BUFFEREXCEEDED
      (by decide) (by decide) (by decide) (by decide),
   C6_amended_curPage_unchanged.2.1 c6bS 2 ⟨2, 3, [some recLen40]⟩ NULLRID
      junkRid 2 sched1 Status.BUFFEREXCEEDED (by decide) (by decide)
      (by decide) (by decide) (by decide) (by decide) (by decide) (by decide),
   C6_amended_curPage_unchanged.2.2 c6cS recLen40 sched1 Status.BUFFEREXCEEDED
      (by decide) (by decide) (by decide) (by decide) (by decide) (by decide)⟩

/-- Helper: writing a frame back never changes the page numbers of the file. -/
theorem setPageL_map_pageNo (ps : List DataPage) (pg : DataPage) :
    (setPageL ps pg).map (fun p => p.pageNo) = ps.map (fun p => p.pageNo) := by
  induction ps with
  | nil => rfl
  | cons q qs ih =>
    unfold setPageL
    split
    · rename_i h
      simp only [List.map_cons]
      rw [eq_of_beq h]
    · simp only [List.map_cons, ih]

/-- Helper: membership in a written-back file keeps page numbers. -/
theorem setPageL_pageNo_mem (ps : List DataPage) (pg p : DataPage)
    (hp : p ∈ setPageL ps pg) : p.pageNo ∈ ps.map (fun q => q.pageNo) := by
  rw [← setPageL_map_pageNo ps pg]
  exact List.mem_map_of_mem _ hp

/-- Helper: looking up a freshly appended page number finds the appended
page. -/
theorem findPage_fresh (ps : List DataPage) (pg : DataPage) (n : Int)
    (hfresh : ∀ p ∈ ps, p.pageNo ≠ n) (hn : pg.pageNo = n) :
    (ps ++ [pg]).find? (fun p => p.pageNo == n) = some pg := by
  induction ps with
  | nil => simp [List.find?, hn]
  | cons q qs ih =>
    have hq : (q.pageNo == n) = false := by
      simp [hfresh q (List.mem_cons_self q qs)]
    simp only [List.cons_append, List.find?, hq]
    exact ih fun p hp => hfresh p (List.mem_cons_of_mem q hp)

/-- Helper: writing back a freshly appended page replaces exactly it. -/
theorem setPageL_append_fresh (ps : List DataPage) (old pg : DataPage) (n : Int)
    (hfresh : ∀ p ∈ ps, p.pageNo ≠ n) (hold : old.pageNo = n)
    (hpg : pg.pageNo = n) :
    setPageL (ps ++ [old]) pg = ps ++ [pg] := by
  induction ps with
  | nil =>
    unfold setPageL
    simp [hold, hpg]
  | cons q qs ih =>
    have hq : (q.pageNo == pg.pageNo) = false := by
      simp [hpg, hfresh q (List.mem_cons_self q qs)]
    simp only [List.cons_append]
    unfold setPageL
    rw [hq]
    simp only [Bool.false_eq_true, if_false, ite_false]
    rw [ih fun p hp => hfresh p (List.mem_cons_of_mem q hp)]

/-- C10: when the first page-layer insert reports NOSPACE and the buffer
calls of the growth path succeed, insertRecord retries the insert on the
fresh page without checking its status: for every page-layer behaviour pIns
the call returns OK, increments header.recCnt and propagates to curRec and
outRid whatever the rid out parameter holds - the retried rid on success,
the uninitialized junk rid0 otherwise. -/
theorem C10_unchecked_retry_insert
    (pIns : DataPage → Record → Status × DataPage × Option RID)
    (rid0 : RID) (s : HFState) (rec : Record) (sched : Sched)
    (pg pg1 : DataPage) (orid1 : Option RID) (pn : Int)
    (hl0 : 0 ≤ rec.length) (hl1 : rec.length ≤ PAGESIZE - DPFIXED)
    (hlast : s.curPageNo = s.disk.hdr.lastPage)
    (hcp : s.curPage = some pn)
    (hfind : s.disk.findPage pn = some pg)
    (hfirst : pIns pg rec = (Status.NOSPACE, pg1, orid1))
    (h0 : sched s.bufCtr = none) (h1 : sched (s.bufCtr + 1) = none)
    (hfresh : ∀ p ∈ s.disk.pages, p.pageNo ≠ s.disk.nextPageNo) :
    (insertRecord sched pIns rid0 s rec).1 = Status.OK ∧
    (insertRecord sched pIns rid0 s rec).2.1 =
      ((pIns (DataPage.init s.disk.nextPageNo) rec).2.2).getD rid0 ∧
    ((insertRecord sched pIns rid0 s rec).2.2).curRec =
      ((pIns (DataPage.init s.disk.nextPageNo) rec).2.2).getD rid0 ∧
    ((insertRecord sched pIns rid0 s rec).2.2).disk.hdr.recCnt =
      s.disk.hdr.recCnt + 1 := by
  have hfresh1 : ∀ p ∈ setPageL s.disk.pages pg1,
      p.pageNo ≠ s.disk.nextPageNo := by
    intro p hp
    have hm := setPageL_pageNo_mem _ _ _ hp
    simp only [List.mem_map] at hm
    obtain ⟨q, hq, he⟩ := hm
    exact he ▸ hfresh q hq
  have hset : setPageL
      (setPageL s.disk.pages pg1 ++ [DataPage.init s.disk.nextPageNo])
      (DataPage.init s.disk.nextPageNo) =
      setPageL s.disk.pages pg1 ++ [DataPage.init s.disk.nextPageNo] :=
    setPageL_append_fresh _ _ _ _ hfresh1 rfl rfl
  have hfind2 : (setPageL s.disk.pages pg1 ++
      [DataPage.init s.disk.nextPageNo]).find?
        (fun p => p.pageNo == s.disk.nextPageNo) =
      some (DataPage.init s.disk.nextPageNo) :=
    findPage_fresh _ _ _ hfresh1 rfl
  rcases hretry : pIns (DataPage.init s.disk.nextPageNo) rec with ⟨st2, pg3, orid2⟩
  unfold insertRecord insertMoveToLast insertGrow allocPage finishInsert bufStep
  rw [if_neg (by omega)]
  simp only [hlast, ne_eq, not_true_eq_false, ite_false, reduceIte, if_false,
    hcp, hfind, hfirst, h0, h1]
  simp only [Disk.setPage, Disk.findPage]
  simp only [hset, hfind2, hretry]
  exact ⟨trivial, trivial, trivial, trivial⟩

/-- C10 witness: with a page layer whose insert always fails and never
assigns the rid out parameter, the growth-path insertRecord still returns
OK with the junk rid and increments header.recCnt. -/
theorem C10_unchecked_retry_insert_witness :
    ((insertRecord noFail pInsFail rid9 hfS0 recLen40).1 = Status.OK ∧
     (insertRecord noFail pInsFail rid9 hfS0 recLen40).2.1 =
       ((pInsFail (DataPage.init hfS0.disk.nextPageNo) recLen40).2.2).getD rid9 ∧
     ((insertRecord noFail pInsFail rid9 hfS0 recLen40).2.2).curRec =
       ((pInsFail (DataPage.init hfS0.disk.nextPageNo) recLen40).2.2).getD rid9 ∧
     ((insertRecord noFail pInsFail rid9 hfS0 recLen40).2.2).disk.hdr.recCnt =
       hfS0.disk.hdr.recCnt + 1) ∧
    ((pInsFail (DataPage.init hfS0.disk.nextPageNo) recLen40).2.2).getD rid9 = rid9 :=
  ⟨C10_unchecked_retry_insert pInsFail rid9 hfS0 recLen40 noFail
      (DataPage.init 2) (DataPage.init 2) none 2 (by decide) (by decide)
      (by decide) (by decide) (by decide) (by decide) (by decide) (by decide)
      (by decide),
   by decide⟩

/-- Helper: liveCount of a cons. -/
theorem liveCount_cons (p : DataPage) (ps : List DataPage) :
    liveCount (p :: ps) = p.pageLive + liveCount ps := by
  simp [liveCount]

/-- Helper: liveCount distributes over append. -/
theorem liveCount_append (ps qs : List DataPage) :
    liveCount (ps ++ qs) = liveCount ps + liveCount qs := by
  simp [liveCount]

/-- Helper: a page-layer insert adds one live record to the page. -/
theorem pageLive_insert (p : DataPage) (rec : Record) :
    DataPage.pageLive { p with slots := p.slots ++ [some rec] } =
      p.pageLive + 1 := by
  simp [DataPage.pageLive, List.filter_append]

/-- Helper: clearing a live slot drops the live-slot count by one. -/
theorem filter_isSome_set_none (l : List (Option Record)) (i : Nat)
    (h : (l.getD i none).isSome = true) :
    ((l.set i none).filter (fun o => o.isSome)).length + 1 =
      (l.filter (fun o => o.isSome)).length := by
  induction l generalizing i with
  | nil => simp [List.getD] at h
  | cons a as ih =>
    cases i with
    | zero =>
      simp only [List.getD_cons_zero] at h
      simp only [List.set_cons_zero, List.filter_cons, h]
      simp
    | succ j =>
      simp only [List.getD_cons_succ] at h
      simp only [List.set_cons_succ, List.filter_cons]
      cases ha : a.isSome <;> simp [ih j h, Nat.succ_eq_add_one]

/-- Helper: a page-layer delete removes one live record from the page. -/
theorem pageLive_delete (p : DataPage) (i : Nat)
    (h : (p.slots.getD i none).isSome = true) :
    DataPage.pageLive { p with slots := p.slots.set i none } + 1 =
      p.pageLive := by
  have := filter_isSome_set_none p.slots i h
  simp only [DataPage.pageLive]
  omega

/-- Helper: writing a frame back changes the total live count by the
difference between the new and the old content of that frame. -/
theorem liveCount_setPageL (ps : List DataPage) (pg' pgf : DataPage)
    (h : ps.find? (fun p => p.pageNo == pg'.pageNo) = some pgf) :
    liveCount (setPageL ps pg') + pgf.pageLive =
      liveCount ps + pg'.pageLive := by
  induction ps with
  | nil => simp [List.find?] at h
  | cons q qs ih =>
    unfold setPageL
    cases hq : (q.pageNo == pg'.pageNo) with
    | true =>
      simp only [List.find?, hq] at h
      injection h with h
      subst h
      simp only [hq, if_true, ite_true]
      rw [liveCount_cons, liveCount_cons]
      omega
    | false =>
      simp only [List.find?, hq] at h
      simp only [hq, Bool.false_eq_true, if_false, ite_false]
      rw [liveCount_cons, liveCount_cons]
      have := ih h
      omega

/-- Helper: writing a frame back keeps the number of pages. -/
theorem setPageL_length (ps : List DataPage) (pg : DataPage) :
    (setPageL ps pg).length = ps.length := by
  have := congrArg List.length (setPageL_map_pageNo ps pg)
  simpa using this

/-- Helper: writing back an unchanged frame is the identity. -/
theorem setPageL_self (ps : List DataPage) (pg : DataPage)
    (h : ps.find? (fun p => p.pageNo == pg.pageNo) = some pg) :
    setPageL ps pg = ps := by
  induction ps with
  | nil => simp [List.find?] at h
  | cons q qs ih =>
    unfold setPageL
    cases hq : (q.pageNo == pg.pageNo) with
    | true =>
      simp only [List.find?, hq] at h
      injection h with h
      simp only [hq, if_true, ite_true, h]
    | false =>
      simp only [List.find?, hq] at h
      simp only [hq, Bool.false_eq_true, if_false, ite_false, ih h]

/-- Helper: writing a frame back preserves which page numbers resolve. -/
theorem find?_isSome_setPageL (ps : List DataPage) (pg : DataPage) (n : Int) :
    ((setPageL ps pg).find? (fun p => p.pageNo == n)).isSome =
      (ps.find? (fun p => p.pageNo == n)).isSome := by
  induction ps with
  | nil => rfl
  | cons q qs ih =>
    unfold setPageL
    cases hq : (q.pageNo == pg.pageNo) with
    | true =>
      have hqn : pg.pageNo = q.pageNo := (eq_of_beq hq).symm
      simp only [hq, if_true, ite_true, List.find?, hqn]
      cases hn : (q.pageNo == n) <;> simp [hn]
    | false =>
      simp only [hq, Bool.false_eq_true, if_false, ite_false, List.find?]
      cases hn : (q.pageNo == n) <;> simp [hn, ih]

/-- Helper: writing back a frame with a -1 nextPage link keeps every link
at -1. -/
theorem setPageL_nextPage (ps : List DataPage) (pg : DataPage)
    (hps : ∀ p ∈ ps, p.nextPage = -1) (hpg : pg.nextPage = -1) :
    ∀ p ∈ setPageL ps pg, p.nextPage = -1 := by
  induction ps with
  | nil => intro p hp; simp [setPageL] at hp
  | cons q qs ih =>
    intro p hp
    unfold setPageL at hp
    by_cases hq : (q.pageNo == pg.pageNo) = true
    · rw [if_pos hq] at hp
      rcases List.mem_cons.mp hp with h | h
      · exact h ▸ hpg
      · exact hps p (List.mem_cons_of_mem q h)
    · rw [if_neg hq] at hp
      rcases List.mem_cons.mp hp with h | h
      · exact h ▸ hps q (List.mem_cons_self q qs)
      · exact ih (fun x hx => hps x (List.mem_cons_of_mem q hx)) p h

/-- Helper: a lookup that succeeds still succeeds after appending pages. -/
theorem find?_isSome_append_left (ps qs : List DataPage)
    (f : DataPage → Bool) (h : (ps.find? f).isSome = true) :
    ((ps ++ qs).find? f).isSome = true := by
  induction ps with
  | nil => simp [List.find?] at h
  | cons q rest ih =>
    simp only [List.cons_append, List.find?] at h ⊢
    cases hq : f q with
    | true => simp [hq]
    | false =>
      simp only [hq] at h ⊢
      exact ih h

/-- Characterization of one buffer-manager call: it returns the scheduled status (OK by default) and bumps the call counter. -/
theorem bufStep_eq (sched : Sched) (s : HFState) :
    bufStep sched s =
      ((sched s.bufCtr).getD Status.OK, { s with bufCtr := s.bufCtr + 1 }) := by
  unfold bufStep
  cases sched s.bufCtr <;> rfl

/-- A successful readPage returns the page found on disk and only bumps the buffer counter. -/
theorem readPage_spec (sched : Sched) (s : HFState) (n : Int) (st : Status)
    (opg : Option DataPage) (s' : HFState)
    (h : readPage sched s n = (st, opg, s')) :
    s' = { s with bufCtr := s.bufCtr + 1 } ∧
    (st = Status.OK → opg = s.disk.findPage n ∧ opg.isSome) := by
  unfold readPage at h
  rw [bufStep_eq] at h
  dsimp only at h
  by_cases he : (sched s.bufCtr).getD Status.OK ≠ Status.OK
  · rw [if_pos he] at h
    cases h
    exact ⟨rfl, fun hok => absurd hok he⟩
  · rw [if_neg he] at h
    rcases hf : s.disk.findPage n with _ | pg
    · rw [hf] at h
      cases h
      exact ⟨rfl, fun hok => Status.noConfusion hok⟩
    · rw [hf] at h
      cases h
      exact ⟨rfl, fun _ => ⟨rfl, rfl⟩⟩

/-- Moving the scan cursor to the last page never changes the disk. -/
theorem insertMoveToLast_disk (sched : Sched) (s : HFState) (st : Status)
    (s' : HFState) (h : insertMoveToLast sched s = (st, s')) :
    s'.disk = s.disk := by
  unfold insertMoveToLast at h
  rw [bufStep_eq] at h
  dsimp only at h
  split at h
  · split at h
    · cases h; rfl
    · split at h
      · rename_i heq
        obtain ⟨hs3, -⟩ := readPage_spec _ _ _ _ _ _ heq
        cases h
        subst hs3
        rfl
      · rename_i heq
        obtain ⟨hs3, -⟩ := readPage_spec _ _ _ _ _ _ heq
        cases h
        subst hs3
        rfl
  · cases h; rfl

/-- HeapFile::getRecord never changes the disk. -/
theorem getRecordHF_disk (sched : Sched) (s : HFState) (rid : RID)
    (st : Status) (orec : Option Record) (s' : HFState)
    (h : getRecordHF sched s rid = (st, orec, s')) : s'.disk = s.disk := by
  unfold getRecordHF at h
  rw [bufStep_eq] at h
  dsimp only at h
  split at h
  · split at h
    · cases h; rfl
    · split at h
      · rename_i heq
        obtain ⟨hs2, -⟩ := readPage_spec _ _ _ _ _ _ heq
        split at h
        · cases h; subst hs2; rfl
        · cases h; subst hs2; rfl
      · rename_i heq
        obtain ⟨hs2, -⟩ := readPage_spec _ _ _ _ _ _ heq
        cases h; subst hs2; rfl
  · split at h
    · cases h; rfl
    · split at h
      · cases h; rfl
      · split at h
        · cases h; rfl
        · cases h; rfl

/-- resetScan never changes the disk. -/
theorem resetScan_disk (sched : Sched) (s : HFState) (st : Status)
    (s' : HFState) (h : resetScan sched s = (st, s')) : s'.disk = s.disk := by
  unfold resetScan at h
  rw [bufStep_eq] at h
  split at h
  · rcases hcp : s.curPage with _ | pn <;> rw [hcp] at h <;> (try dsimp only at h)
    · rw [if_neg (by simp)] at h
      split at h
      · rename_i heq
        obtain ⟨hs3, -⟩ := readPage_spec _ _ _ _ _ _ heq
        cases h
        subst hs3
        rfl
      · rename_i heq
        obtain ⟨hs3, -⟩ := readPage_spec _ _ _ _ _ _ heq
        cases h
        subst hs3
        rfl
    · split at h
      · cases h; rfl
      · split at h
        · rename_i heq
          obtain ⟨hs3, -⟩ := readPage_spec _ _ _ _ _ _ heq
          cases h
          subst hs3
          rfl
        · rename_i heq
          obtain ⟨hs3, -⟩ := readPage_spec _ _ _ _ _ _ heq
          cases h
          subst hs3
          rfl
  · cases h; rfl

/-- endScan never changes the disk. -/
theorem endScan_disk (sched : Sched) (s : HFState) (st : Status)
    (s' : HFState) (h : endScan sched s = (st, s')) : s'.disk = s.disk := by
  unfold endScan at h
  rw [bufStep_eq] at h
  split at h <;> (try dsimp only at h) <;> cases h <;> rfl

/-- startScan never changes the disk. -/
theorem startScan_disk (s : HFState) (o l : Int) (t : Datatype)
    (flt : Option (List Nat)) (op : Operator) :
    ((startScan s o l t flt op).2).disk = s.disk := by
  unfold startScan
  repeat' split
  all_goals rfl

/-- Frame lemma for the scan loop: it never changes the disk or the scan parameters, and on success the pinned-page pointer matches the current page number. -/
theorem scanNextGo_frame (sched : Sched) :
    ∀ (fuel : Nat) (s : HFState) (tmp nx : RID) (st : Status) (s' : HFState),
    scanNextGo sched fuel s tmp nx = some (st, s') →
    (s'.disk = s.disk ∧ s'.offset = s.offset ∧ s'.length = s.length ∧
     s'.type = s.type ∧ s'.filter = s.filter ∧ s'.op = s.op ∧
     s'.markedPageNo = s.markedPageNo ∧ s'.markedRec = s.markedRec) ∧
    (st = Status.OK → s.curPage = some s.curPageNo →
      s'.curPage = some s'.curPageNo) := by
  intro fuel
  induction fuel with
  | zero =>
    intro s tmp nx st s' h
    simp [scanNextGo] at h
  | succ n ih =>
    intro s tmp nx st s' h
    unfold scanNextGo at h
    rcases hcp : s.curPage with _ | pn <;> rw [hcp] at h <;>
      (try dsimp only at h)
    · cases h
      exact ⟨⟨rfl, rfl, rfl, rfl, rfl, rfl, rfl, rfl⟩,
        fun hok _ => absurd hok (by decide)⟩
    · rcases hf : s.disk.findPage pn with _ | pg <;> rw [hf] at h <;>
        dsimp only at h
      · cases h
        exact ⟨⟨rfl, rfl, rfl, rfl, rfl, rfl, rfl, rfl⟩,
          fun _ hptr => by first | exact hptr | exact hcp.trans hptr⟩
      · by_cases hcond : tmp.pageNo = NULLRID.pageNo ∧
            s.curRec.slotNo = NULLRID.slotNo
        case pos =>
          rw [if_pos hcond] at h
          rcases hfr : pg.firstRecordP with _ | r <;> rw [hfr] at h <;>
            dsimp only at h
          · -- NORECORDS: falls through to getRecordP with nx
            rw [if_neg (by decide)] at h
            split at h
            · cases h
              exact ⟨⟨rfl, rfl, rfl, rfl, rfl, rfl, rfl, rfl⟩,
                fun hok => absurd hok (by decide)⟩
            · split at h
              · cases h
                exact ⟨⟨rfl, rfl, rfl, rfl, rfl, rfl, rfl, rfl⟩,
                  fun _ hptr => by first | exact hptr | exact hcp.trans hptr⟩
              · obtain ⟨hframe, hp⟩ := ih s tmp nx st s' h
                exact ⟨hframe, fun hok hptr => hp hok
                  (by first | exact hptr | exact hcp.trans hptr)⟩
          · rw [if_neg (by decide)] at h
            split at h
            · cases h
              exact ⟨⟨rfl, rfl, rfl, rfl, rfl, rfl, rfl, rfl⟩,
                fun hok => absurd hok (by decide)⟩
            · split at h
              · cases h
                exact ⟨⟨rfl, rfl, rfl, rfl, rfl, rfl, rfl, rfl⟩,
                  fun _ hptr => by first | exact hptr | exact hcp.trans hptr⟩
              · obtain ⟨hframe, hp⟩ := ih s tmp r st s' h
                exact ⟨hframe, fun hok hptr => hp hok
                  (by first | exact hptr | exact hcp.trans hptr)⟩
        case neg =>
          rw [if_neg hcond] at h
          rcases hnr : pg.nextRecordP tmp with _ | r <;> rw [hnr] at h <;>
            dsimp only at h
          · -- ENDOFPAGE: page advance
            rw [if_pos rfl] at h
            by_cases hnp : pg.nextPage = -1
            · rw [if_pos hnp] at h
              cases h
              exact ⟨⟨rfl, rfl, rfl, rfl, rfl, rfl, rfl, rfl⟩,
                fun hok => absurd hok (by decide)⟩
            · rw [if_neg hnp] at h
              rw [bufStep_eq] at h
              dsimp only at h
              split at h
              · cases h
                rename_i hne
                exact ⟨⟨rfl, rfl, rfl, rfl, rfl, rfl, rfl, rfl⟩,
                  fun hok => absurd hok hne⟩
              · split at h
                · rename_i heq
                  obtain ⟨hs2, -⟩ := readPage_spec _ _ _ _ _ _ heq
                  subst hs2
                  obtain ⟨⟨d1, d2, d3, d4, d5, d6, d7, d8⟩, hp⟩ :=
                    ih _ tmp nx st s' h
                  refine ⟨⟨by rw [d1], by rw [d2], by rw [d3], by rw [d4],
                    by rw [d5], by rw [d6], by rw [d7], by rw [d8]⟩,
                    fun hok _ => hp hok rfl⟩
                · rename_i heq
                  obtain ⟨hs2, -⟩ := readPage_spec _ _ _ _ _ _ heq
                  subst hs2
                  cases h
                  exact ⟨⟨rfl, rfl, rfl, rfl, rfl, rfl, rfl, rfl⟩,
                    fun _ hptr => by
                      first | exact hptr | exact hcp.trans hptr⟩
          · rw [if_neg (by decide)] at h
            split at h
            · cases h
              exact ⟨⟨rfl, rfl, rfl, rfl, rfl, rfl, rfl, rfl⟩,
                fun hok => absurd hok (by decide)⟩
            · split at h
              · cases h
                exact ⟨⟨rfl, rfl, rfl, rfl, rfl, rfl, rfl, rfl⟩,
                  fun _ hptr => by first | exact hptr | exact hcp.trans hptr⟩
              · obtain ⟨hframe, hp⟩ := ih s tmp r st s' h
                exact ⟨hframe, fun hok hptr => hp hok
                  (by first | exact hptr | exact hcp.trans hptr)⟩

/-- findPage returns a page whose pageNo is the requested key. -/
theorem findPage_key (d : Disk) (n : Int) (pg : DataPage)
    (h : d.findPage n = some pg) :
    d.pages.find? (fun p => p.pageNo == pg.pageNo) = some pg := by
  have hpred := List.find?_some h
  have : pg.pageNo = n := by simpa using hpred
  rw [this]
  exact h

/-- findPage returns a member of the page list. -/
theorem findPage_mem (d : Disk) (n : Int) (pg : DataPage)
    (h : d.findPage n = some pg) : pg ∈ d.pages :=
  List.mem_of_find?_eq_some h

/-- Writing back a page preserves any pageNo-wise bound satisfied by both the old list and the written page. -/
theorem setPageL_pageNo_bound (ps : List DataPage) (pg : DataPage)
    (P : Int → Prop) (hps : ∀ p ∈ ps, P p.pageNo) :
    ∀ p ∈ setPageL ps pg, P p.pageNo := by
  intro p hp
  have hm := setPageL_pageNo_mem ps pg p hp
  simp only [List.mem_map] at hm
  obtain ⟨q, hq, he⟩ := hm
  exact he ▸ hps q hq

/-- deleteRecord preserves the disk invariant when it succeeds. -/
theorem gooddisk_delete (s : HFState) (s' : HFState)
    (h : deleteRecord s = (Status.OK, s')) (hg : GoodDisk s.disk) :
    GoodDisk s'.disk := by
  obtain ⟨g1, g6, g2, g3, g4, g5⟩ := hg
  unfold deleteRecord at h
  split at h
  · simp at h
  · split at h
    · simp at h
    · rename_i pn pg hfind
      split at h
      rename_i st0 pg1 heq
      cases h
      unfold DataPage.deleteRecordP at heq
      split at heq
      · rename_i hlive
        injection heq with h1 h2
        subst h2
        have hkey := findPage_key _ _ _ hfind
        have hmem := findPage_mem _ _ _ hfind
        have hlc := liveCount_setPageL s.disk.pages
          { pg with slots := pg.slots.set s.curRec.slotNo.toNat none } pg
          (by exact hkey)
        have hpl := pageLive_delete pg s.curRec.slotNo.toNat hlive.2
        refine ⟨?_, ?_, ?_, ?_, ?_, ?_⟩
        · exact setPageL_pageNo_bound _ _
            (fun m => 0 ≤ m ∧ m < s.disk.nextPageNo) g1
        · exact g6
        · simpa [Disk.setPage, setPageL_length] using g2
        · simp only [Disk.setPage]
          omega
        · exact setPageL_nextPage _ _ g4 (g4 pg hmem)
        · simpa [Disk.setPage, Disk.findPage, find?_isSome_setPageL] using g5
      · injection heq with h1 h2
        exact absurd h1 (by decide)

/-- Successful page growth appends one freshly initialized page, links nothing, and bumps pageCnt and the page allocator. -/
theorem insertGrow_spec (sched : Sched) (s : HFState) (s' : HFState)
    (h : insertGrow sched s = (Status.OK, s')) :
    s'.disk.pages = setPageL (s.disk.pages ++ [DataPage.init s.disk.nextPageNo])
        (DataPage.init s.disk.nextPageNo) ∧
    s'.disk.nextPageNo = s.disk.nextPageNo + 1 ∧
    s'.disk.hdr.firstPage = s.disk.hdr.firstPage ∧
    s'.disk.hdr.lastPage = s.disk.nextPageNo ∧
    s'.disk.hdr.pageCnt = s.disk.hdr.pageCnt + 1 ∧
    s'.disk.hdr.recCnt = s.disk.hdr.recCnt ∧
    s'.curPage = some s.disk.nextPageNo ∧
    s'.curPageNo = s.disk.nextPageNo ∧
    s'.curRec = NULLRID := by
  unfold insertGrow allocPage at h
  simp only [bufStep_eq] at h
  split at h
  · simp at h
    exact absurd h.1 (by assumption)
  · split at h
    rename_i n s2 heq
    split at heq
    · injection heq with h1 h2
      exact absurd h1 (by assumption)
    · cases heq
      simp only [Disk.setPage] at h
      cases h
      exact ⟨rfl, rfl, rfl, rfl, rfl, rfl, rfl, rfl, rfl⟩
    · rename_i hdis heq
      injection h with h1 h2
      exact absurd h1 hdis

/-- insertRecord preserves the disk invariant. -/
theorem gooddisk_insert (sched : Sched) (s : HFState) (rec : Record)
    (r : RID) (s' : HFState)
    (h : insertRecordM sched s rec = (Status.OK, r, s'))
    (hg : GoodDisk s.disk) : GoodDisk s'.disk := by
  obtain ⟨g1, g6, g2, g3, g4, g5⟩ := hg
  unfold insertRecordM insertRecord at h
  split at h
  · simp at h
  · rename_i hlen
    split at h
    rename_i stm sm heqm
    have hmd : sm.disk = s.disk := insertMoveToLast_disk _ _ _ _ heqm
    rw [hmd] at h
    split at h
    · rename_i hstm
      simp at h
      exact absurd h.1 hstm
    · split at h
      · simp at h
      · rename_i pn hcp
        split at h
        · simp at h
        · rename_i pg hfind
          have hkey := findPage_key _ _ _ hfind
          have hmem := findPage_mem _ _ _ hfind
          split at h
          · -- NOSPACE arm of the page-layer insert
            rename_i pg1 snd heq
            unfold DataPage.insertRecordP at heq
            split at heq
            · injection heq with hx hrest
              exact absurd hx (by decide)
            · rename_i hnofit
              injection heq with hx hrest
              injection hrest with hpg1 hsnd
              subst hpg1
              have hswd : s.disk.setPage pg = s.disk := by
                unfold Disk.setPage
                rw [setPageL_self _ _ hkey]
              rw [hswd] at h
              dsimp only at h
              rcases hgr : insertGrow sched { sm with disk := s.disk }
                with ⟨stg, sg⟩
              rw [hgr] at h
              dsimp only at h
              split at h
              · rename_i hstg
                simp at h
                exact absurd h.1 hstg
              · rename_i hstg
                have hstOK : stg = Status.OK := by simpa using hstg
                rw [hstOK] at hgr
                obtain ⟨hp1, hp2, hp3, hp4, hp5, hp6, hp7, hp8, hp9⟩ :=
                  insertGrow_spec _ _ _ hgr
                dsimp only at hp1 hp2 hp3 hp4 hp5 hp6 hp7 hp8 hp9
                have hfresh : ∀ p ∈ s.disk.pages,
                    p.pageNo ≠ s.disk.nextPageNo :=
                  fun p hp => ne_of_lt (g1 p hp).2
                rw [setPageL_append_fresh _ _ _ _ hfresh rfl rfl] at hp1
                rw [hp7] at h
                dsimp only at h
                have hfind2 : sg.disk.findPage s.disk.nextPageNo =
                    some (DataPage.init s.disk.nextPageNo) := by
                  unfold Disk.findPage
                  rw [hp1]
                  exact findPage_fresh _ _ _ hfresh rfl
                rw [hfind2] at h
                dsimp only at h
                unfold DataPage.insertRecordP at h
                rw [if_pos (by
                  show (DataPage.init s.disk.nextPageNo).usedSpace +
                    rec.length ≤ PAGESIZE - DPFIXED
                  simp only [DataPage.usedSpace, DataPage.init, List.map_nil,
                    List.sum_nil, PAGESIZE, DPFIXED]
                  simp only [PAGESIZE, DPFIXED] at hlen
                  omega)] at h
                dsimp only at h
                simp only [DataPage.init, List.nil_append] at h
                have hset2 : sg.disk.setPage
                    { pageNo := s.disk.nextPageNo, nextPage := -1,
                      slots := [some rec] } =
                    { sg.disk with
                      pages := s.disk.pages ++
                        [{ pageNo := s.disk.nextPageNo, nextPage := -1,
                           slots := [some rec] }] } := by
                  unfold Disk.setPage
                  rw [hp1]
                  rw [setPageL_append_fresh _ _ _ _ hfresh rfl rfl]
                rw [hset2] at h
                unfold finishInsert at h
                injection h with h1 h23
                injection h23 with h2 h3
                subst h3
                refine ⟨?_, ?_, ?_, ?_, ?_, ?_⟩
                · intro p hp
                  dsimp only at hp ⊢
                  rw [hp2]
                  rcases List.mem_append.mp hp with hold | hnew
                  · have := g1 p hold
                    omega
                  · rcases List.mem_singleton.mp hnew with rfl
                    dsimp only
                    omega
                · dsimp only
                  rw [hp2]
                  omega
                · dsimp only
                  rw [hp5]
                  simp only [List.length_append, List.length_singleton]
                  push_cast
                  omega
                · dsimp only
                  rw [hp6, liveCount_append]
                  have hone : liveCount
                      [{ pageNo := s.disk.nextPageNo, nextPage := -1,
                         slots := [some rec] }] = 1 := rfl
                  omega
                · intro p hp
                  dsimp only at hp
                  rcases List.mem_append.mp hp with hold | hnew
                  · exact g4 p hold
                  · rcases List.mem_singleton.mp hnew with rfl
                    rfl
                · dsimp only
                  rw [hp3]
                  exact find?_isSome_append_left _ _ _ g5
          · -- OK arm of the page-layer insert
            rename_i pg1 orid1 heq
            unfold DataPage.insertRecordP at heq
            split at heq
            · rename_i hfit
              injection heq with hx hrest
              injection hrest with hpg1 horid
              subst hpg1
              unfold finishInsert at h
              injection h with h1 h23
              injection h23 with h2 h3
              subst h3
              have hlc := liveCount_setPageL s.disk.pages
                { pg with slots := pg.slots ++ [some rec] } pg (by exact hkey)
              have hpi := pageLive_insert pg rec
              refine ⟨?_, ?_, ?_, ?_, ?_, ?_⟩
              · exact setPageL_pageNo_bound _ _
                  (fun m => 0 ≤ m ∧ m < s.disk.nextPageNo) g1
              · exact g6
              · simpa [Disk.setPage, setPageL_length] using g2
              · simp only [Disk.setPage]
                omega
              · exact setPageL_nextPage _ _ g4 (g4 pg hmem)
              · simpa [Disk.setPage, Disk.findPage, find?_isSome_setPageL]
                  using g5
            · injection heq with hx hrest
              exact absurd hx (by decide)
          · -- catch-all arm is unreachable for the modelled page layer
            rename_i hd1 hd2 heq
            injection h with h1 h2
            exact absurd h1 hd2

/-- Every heap-file operation preserves the disk invariant. -/
theorem gooddisk_runOp (sched : Sched) (s : HFState) (op : HFOp)
    (s' : HFState) (h : runOp sched s op = some s') (hg : GoodDisk s.disk) :
    GoodDisk s'.disk := by
  cases op with
  | ins rec =>
    simp only [runOp] at h
    split at h
    · rename_i r s2 heq
      injection h with h1
      subst h1
      exact gooddisk_insert _ _ _ _ _ heq hg
    · simp at h
  | del =>
    simp only [runOp] at h
    split at h
    · rename_i s2 heq
      injection h with h1
      subst h1
      exact gooddisk_delete _ _ heq hg
    · simp at h
  | scan f nx outR =>
    simp only [runOp, scanNext] at h
    cases hgo : scanNextGo sched f s s.curRec nx with
    | none =>
      rw [hgo] at h
      simp at h
    | some pr =>
      rcases pr with ⟨st2, s2⟩
      rw [hgo] at h
      simp at h
      subst h
      have hd := (scanNextGo_frame sched f s s.curRec nx st2 s2 hgo).1.1
      rw [hd]
      exact hg
  | getRec rid =>
    simp only [runOp] at h
    injection h with h1
    subst h1
    rcases hr : getRecordHF sched s rid with ⟨st, orec, s2⟩
    have hd := getRecordHF_disk _ _ _ _ _ _ hr
    dsimp only
    rw [hd]
    exact hg
  | startS o l t fl op =>
    simp only [runOp] at h
    injection h with h1
    subst h1
    rw [startScan_disk]
    exact hg
  | mark =>
    simp only [runOp] at h
    injection h with h1
    subst h1
    exact hg
  | reset =>
    simp only [runOp] at h
    injection h with h1
    subst h1
    rcases hr : resetScan sched s with ⟨st, s2⟩
    have hd := resetScan_disk _ _ _ _ hr
    dsimp only
    rw [hd]
    exact hg
  | dirty =>
    simp only [runOp] at h
    injection h with h1
    subst h1
    exact hg
  | endS =>
    simp only [runOp] at h
    injection h with h1
    subst h1
    rcases hr : endScan sched s with ⟨st, s2⟩
    have hd := endScan_disk _ _ _ _ hr
    dsimp only
    rw [hd]
    exact hg

/-- A whole run of operations preserves the disk invariant. -/
theorem gooddisk_runOps (sched : Sched) :
    ∀ (ops : List HFOp) (s s' : HFState),
    runOps sched s ops = some s' → GoodDisk s.disk → GoodDisk s'.disk := by
  intro ops
  induction ops with
  | nil =>
    intro s s' h hg
    injection h with h1
    subst h1
    exact hg
  | cons op rest ih =>
    intro s s' h hg
    unfold runOps at h
    split at h
    · rename_i s2 heq
      exact ih s2 s' h (gooddisk_runOp _ _ _ _ heq hg)
    · simp at h

/-- The freshly created heap file satisfies the disk invariant. -/
theorem gooddisk_created : GoodDisk createdDisk := by
  constructor
  · decide
  · exact ⟨by decide, by decide, by decide, by decide, by decide⟩

/-- Under the disk invariant, exactly one page is reachable from the header (the nextPage chain is broken). -/
theorem reach_of_good (d : Disk) (hg : GoodDisk d) : reachCount d = 1 := by
  obtain ⟨g1, g6, g2, g3, g4, g5⟩ := hg
  unfold reachCount
  rcases hf : d.findPage d.hdr.firstPage with _ | pg
  · rw [hf] at g5
    simp at g5
  · have hmem := findPage_mem _ _ _ hf
    have hnone : d.findPage pg.nextPage = none := by
      rw [g4 pg hmem]
      unfold Disk.findPage
      rw [List.find?_eq_none]
      intro p hp
      have := (g1 p hp).1
      simp only [beq_iff_eq]
      omega
    have hchain : ∀ f : Nat, chainCount d f pg.nextPage = 0 := by
      intro f
      cases f with
      | zero => rfl
      | succ k =>
        unfold chainCount
        rw [hnone]
    have hlen : d.pages.length ≠ 0 := by
      intro hz
      rw [List.length_eq_zero] at hz
      rw [hz] at hmem
      simp at hmem
    rcases hL : d.pages.length with _ | m
    · exact absurd hL hlen
    · unfold chainCount
      rw [hf]
      show 1 + chainCount d m pg.nextPage = 1
      rw [hchain]

/-- C3: after any run of operations on a freshly created heap file in which every insertRecord and deleteRecord returned OK (runOp demands OK for those two and allows any outcome elsewhere), header.recCnt equals the number of live records across the data pages. -/
theorem C3_recCnt_invariant (sched : Sched) (ops : List HFOp) (s' : HFState)
    (h : runOps sched (openScan createdDisk) ops = some s') :
    s'.disk.hdr.recCnt = liveCount s'.disk.pages :=
  (gooddisk_runOps sched ops (openScan createdDisk) s' h gooddisk_created).2.2.2.1

/-- C3 witness: the invariant instantiated on the concrete insert-then-delete run. -/
theorem C3_recCnt_invariant_witness :
    ((runOps noFail (openScan createdDisk) insDel2).getD (openScan createdDisk)).disk.hdr.recCnt =
      liveCount ((runOps noFail (openScan createdDisk) insDel2).getD (openScan createdDisk)).disk.pages :=
  C3_recCnt_invariant noFail insDel2 _ (by decide)

/-- C2 (amended): for every reachable state, header.pageCnt equals the number of data pages on disk (not 1 plus them), and exactly one data page is reachable from header.firstPage, because insertRecord never links grown pages via setNextPage. -/
theorem C2_amended_pageCnt (sched : Sched) (ops : List HFOp) (s' : HFState)
    (h : runOps sched (openScan createdDisk) ops = some s') :
    s'.disk.hdr.pageCnt = (s'.disk.pages.length : Int) ∧ reachCount s'.disk = 1 := by
  have hg := gooddisk_runOps sched ops (openScan createdDisk) s' h gooddisk_created
  exact ⟨hg.2.2.1, reach_of_good _ hg⟩

/-- C2 witness: the amended invariant instantiated on a concrete one-insert run. -/
theorem C2_amended_pageCnt_witness :
    ((runOps noFail (openScan createdDisk) [HFOp.ins recLen40]).getD (openScan createdDisk)).disk.hdr.pageCnt =
      ((((runOps noFail (openScan createdDisk) [HFOp.ins recLen40]).getD (openScan createdDisk)).disk.pages.length : Int)) ∧
    reachCount ((runOps noFail (openScan createdDisk) [HFOp.ins recLen40]).getD (openScan createdDisk)).disk = 1 :=
  C2_amended_pageCnt noFail [HFOp.ins recLen40] _ (by decide)

/-- Under the reliable schedule a buffer-manager call returns OK and bumps the counter. -/
theorem bufStep_noFail (s : HFState) :
    bufStep noFail s = (Status.OK, { s with bufCtr := s.bufCtr + 1 }) := rfl

/-- Under the reliable schedule readPage returns the page found on disk, or BADPAGENO when it is absent. -/
theorem readPage_noFail (s : HFState) (n : Int) :
    readPage noFail s n =
      match s.disk.findPage n with
      | some pg => (Status.OK, some pg, { s with bufCtr := s.bufCtr + 1 })
      | none => (Status.BADPAGENO, none, { s with bufCtr := s.bufCtr + 1 }) := by
  unfold readPage
  rw [bufStep_noFail]
  dsimp only
  rw [if_neg (show ¬(Status.OK ≠ Status.OK) from fun hne => hne rfl)]

/-- matchRec reads only the scan-parameter fields, so states that agree on them classify records identically. -/
theorem matchRec_congr (s t : HFState) (rec : Record) (h : ScanEq s t) :
    matchRec t rec = matchRec s rec := by
  obtain ⟨-, -, -, -, e5, e6, e7, e8, e9⟩ := h
  unfold matchRec
  rw [← e5, ← e6, ← e7, ← e8, ← e9]

/-- Determinism of the scan loop under the reliable schedule: states that agree on the fields scanNext reads produce the same status and ScanEq-related result states. -/
theorem scanNextGo_congr :
    ∀ (fuel : Nat) (s t : HFState) (tmp nx : RID) (st : Status) (s' : HFState),
    ScanEq s t →
    scanNextGo noFail fuel s tmp nx = some (st, s') →
    ∃ t', scanNextGo noFail fuel t tmp nx = some (st, t') ∧ ScanEq s' t' := by
  intro fuel
  induction fuel with
  | zero =>
    intro s t tmp nx st s' hst h
    simp [scanNextGo] at h
  | succ n ih =>
    intro s t tmp nx st s' hst h
    obtain ⟨e1, e2, e3, e4, e5, e6, e7, e8, e9⟩ := hst
    unfold scanNextGo at h
    rcases hcp : s.curPage with _ | pn <;> rw [hcp] at h <;> (try dsimp only at h)
    · cases h
      refine ⟨t, ?_, e1, e2, e3, e4, e5, e6, e7, e8, e9⟩
      unfold scanNextGo
      rw [← e2, hcp]
    · rcases hf : s.disk.findPage pn with _ | pg <;> rw [hf] at h <;>
        dsimp only at h
      · cases h
        refine ⟨t, ?_, e1, e2, e3, e4, e5, e6, e7, e8, e9⟩
        unfold scanNextGo
        rw [← e2, hcp]
        dsimp only
        rw [← e1, hf]
      · by_cases hcond : tmp.pageNo = NULLRID.pageNo ∧
            s.curRec.slotNo = NULLRID.slotNo
        case pos =>
          rw [if_pos hcond] at h
          rcases hfr : pg.firstRecordP with _ | r <;> rw [hfr] at h <;>
            dsimp only at h
          · rw [if_neg (by decide)] at h
            rcases hgr : pg.getRecordP nx with _ | rec <;> rw [hgr] at h <;>
              dsimp only at h
            · cases h
              refine ⟨t, ?_, e1, e2, e3, e4, e5, e6, e7, e8, e9⟩
              unfold scanNextGo
              rw [← e2, hcp]
              dsimp only
              rw [← e1, hf]
              dsimp only
              rw [← e4, if_pos hcond, hfr]
              dsimp only
              rw [if_neg (by decide), hgr]
            · by_cases hm : matchRec s rec
              · rw [if_pos hm] at h
                cases h
                refine ⟨{ t with curRec := nx }, ?_,
                  e1, hcp.symm.trans e2, e3, rfl, e5, e6, e7, e8, e9⟩
                unfold scanNextGo
                rw [← e2, hcp]
                dsimp only
                rw [← e1, hf]
                dsimp only
                rw [← e4, if_pos hcond, hfr]
                dsimp only
                rw [if_neg (by decide), hgr]
                dsimp only
                rw [matchRec_congr s t rec
                  ⟨e1, e2, e3, e4, e5, e6, e7, e8, e9⟩, if_pos hm]
              · rw [if_neg hm] at h
                obtain ⟨t', ht', hst'⟩ := ih s t tmp nx st s'
                  ⟨e1, e2, e3, e4, e5, e6, e7, e8, e9⟩ h
                refine ⟨t', ?_, hst'⟩
                unfold scanNextGo
                rw [← e2, hcp]
                dsimp only
                rw [← e1, hf]
                dsimp only
                rw [← e4, if_pos hcond, hfr]
                dsimp only
                rw [if_neg (by decide), hgr]
                dsimp only
                rw [matchRec_congr s t rec
                  ⟨e1, e2, e3, e4, e5, e6, e7, e8, e9⟩, if_neg hm]
                exact ht'
          · rw [if_neg (by decide)] at h
            rcases hgr : pg.getRecordP r with _ | rec <;> rw [hgr] at h <;>
              dsimp only at h
            · cases h
              refine ⟨t, ?_, e1, e2, e3, e4, e5, e6, e7, e8, e9⟩
              unfold scanNextGo
              rw [← e2, hcp]
              dsimp only
              rw [← e1, hf]
              dsimp only
              rw [← e4, if_pos hcond, hfr]
              dsimp only
              rw [if_neg (by decide), hgr]
            · by_cases hm : matchRec s rec
              · rw [if_pos hm] at h
                cases h
                refine ⟨{ t with curRec := r }, ?_,
                  e1, hcp.symm.trans e2, e3, rfl, e5, e6, e7, e8, e9⟩
                unfold scanNextGo
                rw [← e2, hcp]
                dsimp only
                rw [← e1, hf]
                dsimp only
                rw [← e4, if_pos hcond, hfr]
                dsimp only
                rw [if_neg (by decide), hgr]
                dsimp only
                rw [matchRec_congr s t rec
                  ⟨e1, e2, e3, e4, e5, e6, e7, e8, e9⟩, if_pos hm]
              · rw [if_neg hm] at h
                obtain ⟨t', ht', hst'⟩ := ih s t tmp r st s'
                  ⟨e1, e2, e3, e4, e5, e6, e7, e8, e9⟩ h
                refine ⟨t', ?_, hst'⟩
                unfold scanNextGo
                rw [← e2, hcp]
                dsimp only
                rw [← e1, hf]
                dsimp only
                rw [← e4, if_pos hcond, hfr]
                dsimp only
                rw [if_neg (by decide), hgr]
                dsimp only
                rw [matchRec_congr s t rec
                  ⟨e1, e2, e3, e4, e5, e6, e7, e8, e9⟩, if_neg hm]
                exact ht'
        case neg =>
          rw [if_neg hcond] at h
          rcases hnr : pg.nextRecordP tmp with _ | r <;> rw [hnr] at h <;>
            dsimp only at h
          · rw [if_pos rfl] at h
            by_cases hnp : pg.nextPage = -1
            · rw [if_pos hnp] at h
              cases h
              refine ⟨t, ?_, e1, e2, e3, e4, e5, e6, e7, e8, e9⟩
              unfold scanNextGo
              rw [← e2, hcp]
              dsimp only
              rw [← e1, hf]
              dsimp only
              rw [← e4, if_neg hcond, hnr]
              dsimp only
              rw [if_pos rfl, if_pos hnp]
            · rw [if_neg hnp] at h
              rw [bufStep_noFail] at h
              dsimp only at h
              rw [if_neg (show ¬(Status.OK ≠ Status.OK) from
                fun hne => hne rfl)] at h
              rw [readPage_noFail] at h
              dsimp only at h
              rcases hf2 : s.disk.findPage pg.nextPage with _ | pg2 <;>
                rw [hf2] at h <;> dsimp only at h
              · cases h
                refine ⟨{ t with bufCtr := t.bufCtr + 1 + 1 }, ?_,
                  e1, e2, e3, e4, e5, e6, e7, e8, e9⟩
                unfold scanNextGo
                rw [← e2, hcp]
                dsimp only
                rw [← e1, hf]
                dsimp only
                rw [← e4, if_neg hcond, hnr]
                dsimp only
                rw [if_pos rfl, if_neg hnp, bufStep_noFail]
                dsimp only
                rw [if_neg (show ¬(Status.OK ≠ Status.OK) from
                  fun hne => hne rfl)]
                rw [readPage_noFail]
                dsimp only
                have hf2t : t.disk.findPage pg.nextPage = none := by
                  rw [← e1]
                  exact hf2
                rw [hf2t]
                dsimp only
                rw [← e2, hcp, ← e4, ← e1]
              · obtain ⟨t', ht', hst'⟩ := ih
                  { s with
                    curPageNo := pg.nextPage, curPage := some pg.nextPage,
                    curDirtyFlag := false, curRec := NULLRID,
                    bufCtr := s.bufCtr + 1 + 1 }
                  { t with
                    curPageNo := pg.nextPage, curPage := some pg.nextPage,
                    curDirtyFlag := false, curRec := NULLRID,
                    bufCtr := t.bufCtr + 1 + 1 }
                  tmp nx st s'
                  ⟨e1, rfl, rfl, rfl, e5, e6, e7, e8, e9⟩ h
                refine ⟨t', ?_, hst'⟩
                unfold scanNextGo
                rw [← e2, hcp]
                dsimp only
                rw [← e1, hf]
                dsimp only
                rw [← e4, if_neg hcond, hnr]
                dsimp only
                rw [if_pos rfl, if_neg hnp, bufStep_noFail]
                dsimp only
                rw [if_neg (show ¬(Status.OK ≠ Status.OK) from
                  fun hne => hne rfl)]
                rw [readPage_noFail]
                dsimp only
                have hf2t : t.disk.findPage pg.nextPage = some pg2 := by
                  rw [← e1]
                  exact hf2
                rw [hf2t]
                dsimp only
                exact ht'
          · rw [if_neg (by decide)] at h
            rcases hgr : pg.getRecordP r with _ | rec <;> rw [hgr] at h <;>
              dsimp only at h
            · cases h
              refine ⟨t, ?_, e1, e2, e3, e4, e5, e6, e7, e8, e9⟩
              unfold scanNextGo
              rw [← e2, hcp]
              dsimp only
              rw [← e1, hf]
              dsimp only
              rw [← e4, if_neg hcond, hnr]
              dsimp only
              rw [if_neg (by decide), hgr]
            · by_cases hm : matchRec s rec
              · rw [if_pos hm] at h
                cases h
                refine ⟨{ t with curRec := r }, ?_,
                  e1, hcp.symm.trans e2, e3, rfl, e5, e6, e7, e8, e9⟩
                unfold scanNextGo
                rw [← e2, hcp]
                dsimp only
                rw [← e1, hf]
                dsimp only
                rw [← e4, if_neg hcond, hnr]
                dsimp only
                rw [if_neg (by decide), hgr]
                dsimp only
                rw [matchRec_congr s t rec
                  ⟨e1, e2, e3, e4, e5, e6, e7, e8, e9⟩, if_pos hm]
              · rw [if_neg hm] at h
                obtain ⟨t', ht', hst'⟩ := ih s t tmp r st s'
                  ⟨e1, e2, e3, e4, e5, e6, e7, e8, e9⟩ h
                refine ⟨t', ?_, hst'⟩
                unfold scanNextGo
                rw [← e2, hcp]
                dsimp only
                rw [← e1, hf]
                dsimp only
                rw [← e4, if_neg hcond, hnr]
                dsimp only
                rw [if_neg (by decide), hgr]
                dsimp only
                rw [matchRec_congr s t rec
                  ⟨e1, e2, e3, e4, e5, e6, e7, e8, e9⟩, if_neg hm]
                exact ht'

/-- A successful scanNext call comes from a successful run of the underlying loop with tmp bound to the cursor. -/
theorem scanNext_ok_go (sched : Sched) (nx : RID) (f : Nat) (s : HFState)
    (outR r : RID) (s' : HFState)
    (h : scanNext sched nx f s outR = some (Status.OK, r, s')) :
    scanNextGo sched f s s.curRec nx = some (Status.OK, s') := by
  unfold scanNext at h
  rcases hgo : scanNextGo sched f s s.curRec nx with _ | ⟨st0, s0⟩ <;>
    rw [hgo] at h
  · simp at h
  · simp at h
    obtain ⟨h1, -, h3⟩ := h
    rw [h1, h3]

/-- A chain of successful scanNext advances never changes the disk, the scan parameters or the mark, and keeps the pinned-page pointer coherent. -/
theorem scanSteps_frame (a b : HFState) (h : ScanSteps a b) :
    b.disk = a.disk ∧ b.offset = a.offset ∧ b.length = a.length ∧
    b.type = a.type ∧ b.filter = a.filter ∧ b.op = a.op ∧
    b.markedPageNo = a.markedPageNo ∧ b.markedRec = a.markedRec ∧
    (a.curPage = some a.curPageNo → b.curPage = some b.curPageNo) := by
  induction h with
  | refl s => exact ⟨rfl, rfl, rfl, rfl, rfl, rfl, rfl, rfl, fun h => h⟩
  | step f nx outR r hs htail ih =>
    have hgo := scanNext_ok_go _ _ _ _ _ _ _ hs
    obtain ⟨⟨d1, d2, d3, d4, d5, d6, d7, d8⟩, hp⟩ :=
      scanNextGo_frame noFail f _ _ nx Status.OK _ hgo
    obtain ⟨i1, i2, i3, i4, i5, i6, i7, i8, i9⟩ := ih
    exact ⟨i1.trans d1, i2.trans d2, i3.trans d3, i4.trans d4, i5.trans d5,
      i6.trans d6, i7.trans d7, i8.trans d8,
      fun hc => i9 (hp rfl hc)⟩

/-- C8: after markScan, a successful scanNext, any number of further successful advances and a successful resetScan, the next scanNext call succeeds again and delivers the same record cursor (curRec) that the first post-mark scanNext delivered.  The source never writes the outRid out-parameter, so the delivered record is identified by curRec, as everywhere in this development. -/
theorem C8_mark_reset_replay (s s2 s3 s4 : HFState) (f : Nat)
    (nx outR1 outR2 r1 : RID)
    (hwf : s.curPage = some s.curPageNo)
    (hpage : (s.disk.findPage s.curPageNo).isSome)
    (h1 : scanNext noFail nx f (markScan s).2 outR1 = some (Status.OK, r1, s2))
    (hadv : ScanSteps s2 s3)
    (hreset : resetScan noFail s3 = (Status.OK, s4)) :
    ∃ s5, scanNext noFail nx f s4 outR2 = some (Status.OK, outR2, s5) ∧
      s5.curRec = s2.curRec := by
  have hgo := scanNext_ok_go _ _ _ _ _ _ _ h1
  obtain ⟨⟨d1, d2, d3, d4, d5, d6, d7, d8⟩, hp⟩ :=
    scanNextGo_frame noFail f _ _ nx Status.OK _ hgo
  have h2cp : s2.curPage = some s2.curPageNo := hp rfl hwf
  obtain ⟨i1, i2, i3, i4, i5, i6, i7, i8, i9⟩ := scanSteps_frame s2 s3 hadv
  have h3cp : s3.curPage = some s3.curPageNo := i9 h2cp
  have h3d : s3.disk = s.disk := i1.trans d1
  have h3mp : s3.markedPageNo = s.curPageNo := i7.trans d7
  have h3mr : s3.markedRec = s.curRec := i8.trans d8
  unfold resetScan at hreset
  by_cases hmp : s3.markedPageNo ≠ s3.curPageNo
  · rw [if_pos hmp] at hreset
    rw [h3cp] at hreset
    dsimp only at hreset
    rw [bufStep_noFail] at hreset
    dsimp only at hreset
    rw [if_neg (show ¬(Status.OK ≠ Status.OK) from
      fun hne => hne rfl)] at hreset
    rw [readPage_noFail] at hreset
    dsimp only at hreset
    rw [h3d, h3mp, h3mr] at hreset
    obtain ⟨pg0, hpg0⟩ := Option.isSome_iff_exists.mp hpage
    rw [hpg0] at hreset
    dsimp only at hreset
    injection hreset with hst4 hs4
    have hc1 := congrArg HFState.disk hs4
    have hc2 := congrArg HFState.curPage hs4
    have hc3 := congrArg HFState.curPageNo hs4
    have hc4 := congrArg HFState.curRec hs4
    have hc5 := congrArg HFState.offset hs4
    have hc6 := congrArg HFState.length hs4
    have hc7 := congrArg HFState.type hs4
    have hc8 := congrArg HFState.filter hs4
    have hc9 := congrArg HFState.op hs4
    obtain ⟨t', ht', hteq⟩ := scanNextGo_congr f (markScan s).2 s4
      ((markScan s).2).curRec nx Status.OK s2
      ⟨hc1, hwf.trans hc2, hc3, hc4,
       (i2.trans d2).symm.trans hc5,
       (i3.trans d3).symm.trans hc6,
       (i4.trans d4).symm.trans hc7,
       (i5.trans d5).symm.trans hc8,
       (i6.trans d6).symm.trans hc9⟩ hgo
    refine ⟨t', ?_, (hteq.2.2.2.1).symm⟩
    unfold scanNext
    rw [show s4.curRec = ((markScan s).2).curRec from hc4.symm]
    rw [ht']
    rfl
  · rw [if_neg hmp] at hreset
    have heq : s3.markedPageNo = s3.curPageNo := not_not.mp hmp
    injection hreset with hst4 hs4
    have hc1 := congrArg HFState.disk hs4
    have hc2 := congrArg HFState.curPage hs4
    have hc3 := congrArg HFState.curPageNo hs4
    have hc4 := congrArg HFState.curRec hs4
    have hc5 := congrArg HFState.offset hs4
    have hc6 := congrArg HFState.length hs4
    have hc7 := congrArg HFState.type hs4
    have hc8 := congrArg HFState.filter hs4
    have hc9 := congrArg HFState.op hs4
    obtain ⟨t', ht', hteq⟩ := scanNextGo_congr f (markScan s).2 s4
      ((markScan s).2).curRec nx Status.OK s2
      ⟨h3d.symm.trans hc1,
       hwf.trans ((h3cp.trans
          (congrArg some (heq.symm.trans h3mp))).symm.trans hc2),
       (heq.symm.trans h3mp).symm.trans hc3,
       h3mr.symm.trans hc4,
       (i2.trans d2).symm.trans hc5,
       (i3.trans d3).symm.trans hc6,
       (i4.trans d4).symm.trans hc7,
       (i5.trans d5).symm.trans hc8,
       (i6.trans d6).symm.trans hc9⟩ hgo
    refine ⟨t', ?_, (hteq.2.2.2.1).symm⟩
    unfold scanNext
    rw [show s4.curRec = ((markScan s).2).curRec from
      (h3mr.symm.trans hc4).symm]
    rw [ht']
    rfl

/-- C8 witness: the replay property on a concrete two-record file with one intervening advance. -/
theorem C8_mark_reset_replay_witness :
    ∃ s5, scanNext noFail NULLRID 5 c8s4 NULLRID =
        some (Status.OK, NULLRID, s5) ∧
      s5.curRec = c8s2.curRec :=
  C8_mark_reset_replay c8s c8s2 c8s3 c8s4 5 NULLRID NULLRID NULLRID NULLRID
    (by decide) (by decide) (by decide)
    (ScanSteps.step 5 NULLRID NULLRID NULLRID (by decide)
      (ScanSteps.refl c8s3))
    (by decide)
